import Mathlib

/-
Verification of the tiled-map parser library (`src/lib.rs`).

This file is a shallow embedding of the library's data model and
algorithms, together with theorems checking the natural-language
specification against the code.

Modelling conventions:
* Rust `u32` values are `Nat` (kept below `2^32` by their producers;
  points where wrap-around matters are modelled explicitly), `i32`
  values are `Int`, with the source's `as i32` cast modelled as an
  explicit wrap (`toI32`).
* Rust `f32` values are modelled as exact rationals (`Rat`); the decimal
  parse grammar is approximated (sign, digits, fraction, exponent; no
  `inf`/`nan`/hex forms).  No verified property inspects a float value.
* `Result<T, TiledError>` is `Except TiledError T`.  Event-consuming
  code returns `Outcome`, which additionally marks Rust panics
  (`panic`) and non-termination (`diverge`) explicitly.
* `HashMap` contents are association lists whose `insert` overwrites
  the key; no verified property depends on hash iteration order.
* The XML pull parser, the base64 codec, the decompression codecs and
  the file system are external collaborators; they are parameters of
  the model (`Externals`), and an XML document is a list of pull
  events.  Strings are compared and sliced by characters; the source
  slices by bytes, which agrees on ASCII input.
-/

namespace Tiled

/-- Decimal digit test used by the numeric parsers. -/
def isDecDigit (c : Char) : Bool := ('0' ≤ c && c ≤ '9')

/-- Value of a list of decimal digits, most significant first. -/
def decVal (cs : List Char) : Nat :=
  cs.foldl (fun a c => a * 10 + (c.toNat - '0'.toNat)) 0

/-- Model of Rust `str::parse::<u32>`: optional `+` sign, then one or
more decimal digits, value below `2^32`.  Error strings mirror
`ParseIntError`'s display messages. -/
def parseU32chars (cs : List Char) : Except String Nat :=
  let ds : Option (List Char) :=
    match cs with
    | [] => none
    | '+' :: rest => some rest
    | _ => some cs
  match ds with
  | none => .error ("cannot parse integer from empty string")
  | some [] => .error ("invalid digit found in string")
  | some l =>
    if l.all isDecDigit then
      if decVal l < 2 ^ 32 then .ok (decVal l)
      else .error ("number too large to fit in target type")
    else .error ("invalid digit found in string")

/-- Model of Rust `str::parse::<i32>`: optional sign, digits, value in
`[-2^31, 2^31)`. -/
def parseI32chars (cs : List Char) : Except String Int :=
  let sd : Bool × Option (List Char) :=
    match cs with
    | [] => (false, none)
    | '-' :: rest => (true, some rest)
    | '+' :: rest => (false, some rest)
    | _ => (false, some cs)
  match sd with
  | (_, none) => .error ("cannot parse integer from empty string")
  | (_, some []) => .error ("invalid digit found in string")
  | (neg, some l) =>
    if l.all isDecDigit then
      if neg then
        if decVal l ≤ 2 ^ 31 then .ok (-(decVal l : Int))
        else .error ("number too small to fit in target type")
      else
        if decVal l < 2 ^ 31 then .ok ((decVal l : Int))
        else .error ("number too large to fit in target type")
    else .error ("invalid digit found in string")

/-- Model of Rust `str::parse::<bool>`: exactly `true` or `false`. -/
def parseBool (s : String) : Except String Bool :=
  if s = "true" then .ok true
  else if s = "false" then .ok false
  else .error ("provided string was not `true` or `false`")

/-- Hexadecimal digit test. -/
def isHexDigit (c : Char) : Bool :=
  isDecDigit c || ('a' ≤ c && c ≤ 'f') || ('A' ≤ c && c ≤ 'F')

/-- Value of one hexadecimal digit. -/
def hexDigitVal (c : Char) : Nat :=
  if isDecDigit c then c.toNat - '0'.toNat
  else if 'a' ≤ c && c ≤ 'f' then c.toNat - 'a'.toNat + 10
  else c.toNat - 'A'.toNat + 10

/-- Value of a list of hexadecimal digits, most significant first. -/
def hexVal (cs : List Char) : Nat :=
  cs.foldl (fun a c => a * 16 + hexDigitVal c) 0

/-- Model of `u32::from_str_radix(s, 16)`: optional `+` sign, then one
or more hex digits, value below `2^32`. -/
def parseHexU32chars (cs : List Char) : Except String Nat :=
  let ds : Option (List Char) :=
    match cs with
    | [] => none
    | '+' :: rest => some rest
    | _ => some cs
  match ds with
  | none => .error ("cannot parse integer from empty string")
  | some [] => .error ("invalid digit found in string")
  | some l =>
    if l.all isHexDigit then
      if hexVal l < 2 ^ 32 then .ok (hexVal l)
      else .error ("number too large to fit in target type")
    else .error ("invalid digit found in string")

/-- Longest prefix of decimal digits, and the rest. -/
def spanDigits (cs : List Char) : List Char × List Char :=
  (cs.takeWhile isDecDigit, cs.dropWhile isDecDigit)

/-- Mantissa of a float literal: `digits`, `digits.digits*` or
`.digits+`, as an exact rational. -/
def parseMantissa (cs : List Char) : Option Rat :=
  let ip := (spanDigits cs).1
  match (spanDigits cs).2 with
  | [] => if ip.isEmpty then none else some ((decVal ip : Int) : Rat)
  | '.' :: rest2 =>
    let fp := (spanDigits rest2).1
    if (spanDigits rest2).2.isEmpty && !(ip.isEmpty && fp.isEmpty) then
      some ((decVal ip : Rat) + (decVal fp : Rat) / ((10 : Rat) ^ fp.length))
    else none
  | _ => none

/-- Model of Rust `str::parse::<f32>` as an exact rational: sign,
mantissa, optional decimal exponent.  (`inf`, `nan` and rounding are
not modelled; no verified property inspects a float value.) -/
def parseF32chars (cs : List Char) : Except String Rat :=
  let sb : Bool × List Char :=
    match cs with
    | '-' :: r => (true, r)
    | '+' :: r => (false, r)
    | r => (false, r)
  let body := sb.2
  let mant := body.takeWhile (fun c => c != 'e' && c != 'E')
  let rest := body.dropWhile (fun c => c != 'e' && c != 'E')
  match parseMantissa mant with
  | none => .error ("invalid float literal")
  | some m =>
    let signed := if sb.1 then -m else m
    match rest with
    | [] => .ok signed
    | _ :: expChars =>
      let esb : Bool × List Char :=
        match expChars with
        | '-' :: r => (true, r)
        | '+' :: r => (false, r)
        | r => (false, r)
      if !esb.2.isEmpty && esb.2.all isDecDigit then
        let e := decVal esb.2
        .ok (if esb.1 then signed / ((10 : Rat) ^ e) else signed * ((10 : Rat) ^ e))
      else .error ("invalid float literal")

/-- Rust `str::trim` (approximated with ASCII whitespace). -/
def rustTrimChars (cs : List Char) : List Char :=
  ((cs.dropWhile Char.isWhitespace).reverse.dropWhile Char.isWhitespace).reverse

/-- `str::trim` on `String`. -/
def rustTrim (s : String) : String := ⟨rustTrimChars s.data⟩

/-- `ParseTileError` from the source. -/
inductive ParseTileError where
  | ColourError
  | OrientationError
deriving Repr, DecidableEq

/-- `Colour`: an RGB triple of bytes. -/
structure Colour where
  red : Nat
  green : Nat
  blue : Nat
deriving Repr, DecidableEq

/-- `Colour::from_str`: strip one leading `#`, require exactly six
characters, parse three two-digit hex components. -/
def Colour.fromStr (s : String) : Except ParseTileError Colour :=
  let cs := if s.data.head? = some '#' then s.data.tail else s.data
  if cs.length = 6 then
    match parseHexU32chars (cs.take 2), parseHexU32chars ((cs.drop 2).take 2),
        parseHexU32chars ((cs.drop 4).take 2) with
    | .ok r, .ok g, .ok b => .ok ⟨r, g, b⟩
    | _, _, _ => .error .ColourError
  else .error .ColourError

/-- `Orientation` enumeration. -/
inductive Orientation where
  | Orthogonal
  | Isometric
  | Staggered
  | Hexagonal
deriving Repr, DecidableEq

/-- `Orientation::from_str`. -/
def Orientation.fromStr (s : String) : Except ParseTileError Orientation :=
  if s = "orthogonal" then .ok .Orthogonal
  else if s = "isometric" then .ok .Isometric
  else if s = "staggered" then .ok .Staggered
  else if s = "hexagonal" then .ok .Hexagonal
  else .error .OrientationError

/-- `TiledError`.  Wrapped foreign errors (`std::io::Error`,
`base64::DecodeError`, `xml::reader::Error`) are modelled by their
display strings. -/
inductive TiledError where
  | MalformedAttributes (msg : String)
  | DecompressingError (msg : String)
  | Base64DecodingError (msg : String)
  | XmlDecodingError (msg : String)
  | PrematureEnd (msg : String)
  | Other (msg : String)
deriving Repr, DecidableEq

/-- Result of running a piece of the Rust parser: a value, a returned
`Err`, a Rust panic, or non-termination. -/
inductive Outcome (α : Type) where
  | ok (val : α)
  | err (e : TiledError)
  | panic (msg : String)
  | diverge
deriving Repr, DecidableEq

/-- Monadic bind on `Outcome`: `Err`, panics and divergence propagate. -/
def Outcome.bind {α β : Type} : Outcome α → (α → Outcome β) → Outcome β
  | .ok v, f => f v
  | .err e, _ => .err e
  | .panic m, _ => .panic m
  | .diverge, _ => .diverge

instance : Monad Outcome where
  pure := .ok
  bind := Outcome.bind

/-- Lift a pure `Result` into `Outcome`. -/
def liftE {α : Type} : Except TiledError α → Outcome α
  | .ok v => .ok v
  | .error e => .err e

/-- `PropertyValue`. -/
inductive PropertyValue where
  | BoolValue (b : Bool)
  | FloatValue (f : Rat)
  | IntValue (i : Int)
  | ColorValue (c : Nat)
  | StringValue (s : String)
  | FileValue (s : String)
deriving Repr, DecidableEq

/-- `PropertyValue::new`.  The `"color"` match arm carries the guard
`value.len() > 1`; when the guard fails, matching continues and the
string falls through to the catch-all arm.  Byte length and byte
slicing are modelled as character length and dropping, which agree on
ASCII input. -/
def PropertyValue.new (property_type value : String) : Except TiledError PropertyValue :=
  if property_type = "bool" then
    match parseBool value with
    | .ok b => .ok (.BoolValue b)
    | .error e => .error (.Other e)
  else if property_type = "float" then
    match parseF32chars value.data with
    | .ok f => .ok (.FloatValue f)
    | .error e => .error (.Other e)
  else if property_type = "int" then
    match parseI32chars value.data with
    | .ok i => .ok (.IntValue i)
    | .error e => .error (.Other e)
  else if property_type = "color" ∧ 1 < value.data.length then
    match parseHexU32chars (value.data.drop 1) with
    | .ok c => .ok (.ColorValue c)
    | .error _ => .error (.Other ("Improperly formatted color property"))
  else if property_type = "string" then .ok (.StringValue value)
  else if property_type = "file" then .ok (.FileValue value)
  else .error (.Other ("Unknown property type \"" ++ property_type ++ "\""))

/-- `Properties = HashMap<String, PropertyValue>`, modelled as an
association list. -/
def Properties := List (String × PropertyValue)
deriving instance Repr, DecidableEq for Properties

/-- `HashMap::insert`: replace any existing binding of the key. -/
def propInsert (p : Properties) (k : String) (v : PropertyValue) : Properties :=
  (List.filter (fun kv => kv.1 ≠ k) p) ++ [(k, v)]

/-- `LayerTile`: a global tile id with the three flip flags stripped. -/
structure LayerTile where
  gid : Nat
  flip_h : Bool
  flip_v : Bool
  flip_d : Bool
deriving Repr, DecidableEq

def FLIPPED_HORIZONTALLY_FLAG : Nat := 0x80000000

def FLIPPED_VERTICALLY_FLAG : Nat := 0x40000000

def FLIPPED_DIAGONALLY_FLAG : Nat := 0x20000000

def ALL_FLIP_FLAGS : Nat :=
  FLIPPED_HORIZONTALLY_FLAG ||| FLIPPED_VERTICALLY_FLAG ||| FLIPPED_DIAGONALLY_FLAG

/-- Rust `!ALL_FLIP_FLAGS` at type `u32`: complement within 32 bits. -/
def NOT_ALL_FLIP_FLAGS : Nat := 0xFFFFFFFF ^^^ ALL_FLIP_FLAGS

/-- `LayerTile::new`: split a packed 32-bit id into the plain gid and
the three flip booleans. -/
def LayerTile.new (id : Nat) : LayerTile :=
  let flags := id &&& ALL_FLIP_FLAGS
  let gid := id &&& NOT_ALL_FLIP_FLAGS
  let flip_d := flags &&& FLIPPED_DIAGONALLY_FLAG == FLIPPED_DIAGONALLY_FLAG
  let flip_h := flags &&& FLIPPED_HORIZONTALLY_FLAG == FLIPPED_HORIZONTALLY_FLAG
  let flip_v := flags &&& FLIPPED_VERTICALLY_FLAG == FLIPPED_VERTICALLY_FLAG
  { gid := gid, flip_h := flip_h, flip_v := flip_v, flip_d := flip_d }

/-- One attribute of one element (the source's `OwnedAttribute`; only
the local name is consulted by the library). -/
structure OwnedAttribute where
  name : String
  value : String
deriving Repr, DecidableEq

/-- `xml::reader::XmlEvent`, the pull events of the external XML
collaborator.  Reader failures are absent from modelled streams, so
the `XmlDecodingError` wrap is never exercised by the model. -/
inductive XmlEvent where
  | StartDocument
  | StartElement (name : String) (attributes : List OwnedAttribute)
  | EndElement (name : String)
  | Characters (s : String)
  | Whitespace (s : String)
  | CData (s : String)
  | Comment (s : String)
  | ProcessingInstruction (s : String)
  | EndDocument
deriving Repr, DecidableEq

/-- External collaborators: the base64 codec, the `libflate`
decompressors, and the file system (a path resolves to the XML events
of that file's contents, or `none` when opening fails). -/
structure Externals where
  base64decode : String → Except String (List Nat)
  zlibDecode : List Nat → Except String (List Nat)
  gzipDecode : List Nat → Except String (List Nat)
  openFile : String → Option (List XmlEvent)

/-- `parse_base64`: scan events for the first character content and
base64-decode its trimmed text; an `</data>` end tag seen first yields
an empty buffer.  An exhausted modelled stream is divergence (the
source would keep pulling the reader). -/
def parse_base64 (ext : Externals) : List XmlEvent → Outcome (List Nat × List XmlEvent)
  | [] => .diverge
  | ev :: rest =>
    match ev with
    | .Characters s =>
      match ext.base64decode (rustTrim s) with
      | .ok bytes => .ok (bytes, rest)
      | .error e => .err (.Base64DecodingError e)
    | .EndElement name => if name = "data" then .ok ([], rest) else parse_base64 ext rest
    | _ => parse_base64 ext rest

/-- `decode_zlib` through the external codec. -/
def decode_zlib (ext : Externals) (data : List Nat) : Outcome (List Nat) :=
  match ext.zlibDecode data with
  | .ok v => .ok v
  | .error e => .err (.DecompressingError e)

/-- `decode_gzip` through the external codec. -/
def decode_gzip (ext : Externals) (data : List Nat) : Outcome (List Nat) :=
  match ext.gzipDecode data with
  | .ok v => .ok v
  | .error e => .err (.DecompressingError e)

/-- `slice::chunks(n)` for positive `n`, via an explicit structural
fuel (instantiated with the list length, which always suffices). -/
def chunksOfF {α : Type} (n : Nat) : Nat → List α → List (List α)
  | _, [] => []
  | 0, _ :: _ => []
  | fuel + 1, x :: xs => ((x :: xs).take n) :: chunksOfF n fuel ((x :: xs).drop n)

/-- `slice::chunks(n)` for positive `n` (the `n = 0` panic is handled
by the caller `convert_to_tile`). -/
def chunksOf {α : Type} (n : Nat) (l : List α) : List (List α) := chunksOfF n l.length l

/-- One row of `convert_to_tile`: for each of `remaining` more indices
starting at `i`, read bytes `4*i .. 4*i+3` of the chunk.  The source
evaluates `chunk[start + 3]` first and panics when the chunk is too
short. -/
def convertRow (chunk : List Nat) : Nat → Nat → Outcome (List LayerTile)
  | _, 0 => .ok []
  | i, remaining + 1 =>
    let start := i * 4
    match chunk[start + 3]?, chunk[start + 2]?, chunk[start + 1]?, chunk[start]? with
    | some b3, some b2, some b1, some b0 =>
      let n := (b3 <<< 24) + (b2 <<< 16) + (b1 <<< 8) + b0
      match convertRow chunk (i + 1) remaining with
      | .ok row => .ok (LayerTile.new n :: row)
      | r => r
    | _, _, _, _ => .panic ("index out of bounds")

/-- All rows of `convert_to_tile`, in chunk order; the first panic
surfaces. -/
def convertRows (width : Nat) : List (List Nat) → Outcome (List (List LayerTile))
  | [] => .ok []
  | chunk :: rest =>
    match convertRow chunk 0 width with
    | .ok row =>
      match convertRows width rest with
      | .ok rows => .ok (row :: rows)
      | r => r
    | .err e => .err e
    | .panic m => .panic m
    | .diverge => .diverge

/-- `convert_to_tile`: cut the byte buffer into chunks of `width * 4`
bytes and decode each as one row of `width` little-endian 32-bit ids.
`slice::chunks` panics when its size is zero, and a short trailing
chunk panics at the first out-of-bounds index. -/
def convert_to_tile (all : List Nat) (width : Nat) : Outcome (List (List LayerTile)) :=
  if width * 4 = 0 then .panic ("chunk size must be non-zero")
  else convertRows width (chunksOf (width * 4) all)

/-- The separator set of `decode_csv`. -/
def csvSeps : List Char := ['\n', '\r', ',']

/-- `str::split` on a set of characters, keeping empty pieces. -/
def splitOnAny (seps : List Char) : List Char → List (List Char)
  | [] => [[]]
  | c :: rest =>
    let r := splitOnAny seps rest
    if c ∈ seps then [] :: r
    else
      match r with
      | [] => [[c]]
      | t :: ts => (c :: t) :: ts

/-- `str::split` on the CSV separators. -/
def splitOnSeps (cs : List Char) : List (List Char) := splitOnAny csvSeps cs

/-- The non-blank tokens of a CSV character payload
(`.filter(|v| v.trim() != "")`). -/
def csvTokens (s : String) : List (List Char) :=
  (splitOnSeps s.data).filter (fun t => !(rustTrimChars t).isEmpty)

/-- The row grouping of `decode_csv` (`take(width)` repeatedly), via an
explicit structural fuel (the token count always suffices when `width`
is positive). -/
def csvRowsF (width : Nat) : Nat → List LayerTile → List (List LayerTile)
  | _, [] => []
  | 0, _ :: _ => []
  | fuel + 1, t :: ts => ((t :: ts).take width) :: csvRowsF width fuel ((t :: ts).drop width)

/-- Row grouping with sufficient fuel. -/
def csvRows (width : Nat) (ts : List LayerTile) : List (List LayerTile) :=
  csvRowsF width ts.length ts

/-- Parse every token with `parse::<u32>()`; `none` marks the `Err`
which `unwrap` turns into a panic. -/
def parseTokens : List (List Char) → Option (List Nat)
  | [] => some []
  | t :: ts =>
    match (parseU32chars t).toOption, parseTokens ts with
    | some v, some vs => some (v :: vs)
    | _, _ => none

/-- The token-list step of `decode_csv`.  The token iterator is lazy:
the grouping loop's first `peek` forces the parse of the first token,
where `unwrap` panics on a malformed token; after that, with
`width = 0` and a nonempty token list, `take(0)` consumes nothing and
the loop never terminates.  With positive `width` the loop consumes
every token, so eager parsing of the remaining tokens is
observationally equal. -/
def decodeCsvTokens (width : Nat) : List (List Char) → Outcome (List (List LayerTile))
  | [] => .ok []
  | t0 :: ts =>
    match parseU32chars t0 with
    | .error _ => .panic ("called `Result::unwrap()` on an `Err` value")
    | .ok v0 =>
      if width = 0 then .diverge
      else
        match parseTokens ts with
        | none => .panic ("called `Result::unwrap()` on an `Err` value")
        | some vs => .ok (csvRows width ((v0 :: vs).map LayerTile.new))

/-- The character-content step of `decode_csv`. -/
def decodeCsvChars (width : Nat) (s : String) : Outcome (List (List LayerTile)) :=
  decodeCsvTokens width (csvTokens s)

/-- `decode_csv`: scan events for the first character content; an
`</data>` end tag seen first yields an empty grid. -/
def decode_csv (width : Nat) : List XmlEvent → Outcome (List (List LayerTile) × List XmlEvent)
  | [] => .diverge
  | ev :: rest =>
    match ev with
    | .Characters s =>
      match decodeCsvChars width s with
      | .ok rows => .ok (rows, rest)
      | .err e => .err e
      | .panic m => .panic m
      | .diverge => .diverge
    | .EndElement name => if name = "data" then .ok ([], rest) else decode_csv width rest
    | _ => decode_csv width rest

/-- `parse_data_line`: dispatch on the encoding/compression pair.  The
`zstd` arm is behind a cargo feature that is off by default and is not
modelled, so that pair reaches the unknown-combination error. -/
def parse_data_line (ext : Externals) (encoding compression : Option String)
    (events : List XmlEvent) (width : Nat) :
    Outcome (List (List LayerTile) × List XmlEvent) :=
  match encoding, compression with
  | none, none => .err (.Other ("XML format is currently not supported"))
  | some e, none =>
    if e = "base64" then do
      let br ← parse_base64 ext events
      let rows ← convert_to_tile br.1 width
      return (rows, br.2)
    else if e = "csv" then decode_csv width events
    else .err (.Other ("Unknown encoding format " ++ e))
  | some e, some c =>
    if e = "base64" ∧ c = "zlib" then do
      let br ← parse_base64 ext events
      let d ← decode_zlib ext br.1
      let rows ← convert_to_tile d width
      return (rows, br.2)
    else if e = "base64" ∧ c = "gzip" then do
      let br ← parse_base64 ext events
      let d ← decode_gzip ext br.1
      let rows ← convert_to_tile d width
      return (rows, br.2)
    else
      .err (.Other ("Unknown combination of " ++ e ++ " encoding and " ++ c ++
        " compression"))
  | none, some _ => .err (.Other ("Missing encoding format"))

/-- Attribute scan of one `<property>` element.  As in every expansion
of `get_attrs!`, the list is scanned once and every matching occurrence
overwrites the slot (a failed conversion overwrites with `None`); the
required slots are checked afterwards. -/
structure PropertyAttrs where
  ptype : Option String := none
  key : Option String := none
  value : Option String := none

def propertyAttrStep (st : PropertyAttrs) (a : OwnedAttribute) : PropertyAttrs :=
  if a.name = "type" then { st with ptype := some a.value }
  else if a.name = "name" then { st with key := some a.value }
  else if a.name = "value" then { st with value := some a.value }
  else st

def propertyAttrs (attrs : List OwnedAttribute) :
    Except TiledError (Option String × String × String) :=
  let st := attrs.foldl propertyAttrStep {}
  match st.key, st.value with
  | some k, some v => .ok (st.ptype, k, v)
  | _, _ => .error (.MalformedAttributes ("property must have a name and a value"))

/-- The `parse_tag!` loop of `parse_properties`. -/
def parsePropertiesLoop : List XmlEvent → Properties → Outcome (Properties × List XmlEvent)
  | [], _ => .diverge
  | ev :: rest, p =>
    match ev with
    | .StartElement name attrs =>
      if name = "property" then
        match propertyAttrs attrs with
        | .error e => .err e
        | .ok (t, k, v) =>
          match PropertyValue.new (t.getD ("string")) v with
          | .error e => .err e
          | .ok pv => parsePropertiesLoop rest (propInsert p k pv)
      else parsePropertiesLoop rest p
    | .EndElement name =>
      if name = "properties" then .ok (p, rest) else parsePropertiesLoop rest p
    | .EndDocument => .err (.PrematureEnd ("Document ended before we expected."))
    | _ => parsePropertiesLoop rest p

/-- `parse_properties`: start from an empty bag. -/
def parse_properties (events : List XmlEvent) : Outcome (Properties × List XmlEvent) :=
  parsePropertiesLoop events []

/-- `Image`. -/
structure Image where
  source : String
  width : Int
  height : Int
  transparent_colour : Option Colour
deriving Repr, DecidableEq

structure ImageAttrs where
  trans : Option Colour := none
  source : Option String := none
  width : Option Int := none
  height : Option Int := none

def imageAttrStep (st : ImageAttrs) (a : OwnedAttribute) : ImageAttrs :=
  if a.name = "trans" then { st with trans := (Colour.fromStr a.value).toOption }
  else if a.name = "source" then { st with source := some a.value }
  else if a.name = "width" then { st with width := (parseI32chars a.value.data).toOption }
  else if a.name = "height" then { st with height := (parseI32chars a.value.data).toOption }
  else st

def imageAttrs (attrs : List OwnedAttribute) :
    Except TiledError (Option Colour × String × Int × Int) :=
  let st := attrs.foldl imageAttrStep {}
  match st.source, st.width, st.height with
  | some s, some w, some h => .ok (st.trans, s, w, h)
  | _, _, _ =>
    .error (.MalformedAttributes
      ("image must have a source, width and height with correct types"))

/-- The `parse_tag!` loop of `Image::new`: its only handler is for the
impossible empty tag name, so children are skipped until `</image>`. -/
def imageLoop : List XmlEvent → Outcome (List XmlEvent)
  | [] => .diverge
  | ev :: rest =>
    match ev with
    | .EndElement name => if name = "image" then .ok rest else imageLoop rest
    | .EndDocument => .err (.PrematureEnd ("Document ended before we expected."))
    | _ => imageLoop rest

/-- `Image::new`. -/
def Image.new (events : List XmlEvent) (attrs : List OwnedAttribute) :
    Outcome (Image × List XmlEvent) :=
  match imageAttrs attrs with
  | .error e => .err e
  | .ok (c, s, w, h) =>
    match imageLoop events with
    | .ok rest =>
      .ok ({ source := s, width := w, height := h, transparent_colour := c }, rest)
    | .err e => .err e
    | .panic m => .panic m
    | .diverge => .diverge

/-- `Frame`. -/
structure Frame where
  tile_id : Nat
  duration : Nat
deriving Repr, DecidableEq

structure FrameAttrs where
  tile_id : Option Nat := none
  duration : Option Nat := none

def frameAttrStep (st : FrameAttrs) (a : OwnedAttribute) : FrameAttrs :=
  if a.name = "tileid" then { st with tile_id := (parseU32chars a.value.data).toOption }
  else if a.name = "duration" then
    { st with duration := (parseU32chars a.value.data).toOption }
  else st

/-- `Frame::new`. -/
def Frame.new (attrs : List OwnedAttribute) : Except TiledError Frame :=
  let st := attrs.foldl frameAttrStep {}
  match st.tile_id, st.duration with
  | some t, some d => .ok { tile_id := t, duration := d }
  | _, _ => .error (.MalformedAttributes ("A frame must have tileid and duration"))

/-- The `parse_tag!` loop of `parse_animation`. -/
def parseAnimationLoop : List XmlEvent → List Frame → Outcome (List Frame × List XmlEvent)
  | [], _ => .diverge
  | ev :: rest, acc =>
    match ev with
    | .StartElement name attrs =>
      if name = "frame" then
        match Frame.new attrs with
        | .ok f => parseAnimationLoop rest (acc ++ [f])
        | .error e => .err e
      else parseAnimationLoop rest acc
    | .EndElement name =>
      if name = "animation" then .ok (acc, rest) else parseAnimationLoop rest acc
    | .EndDocument => .err (.PrematureEnd ("Document ended before we expected."))
    | _ => parseAnimationLoop rest acc

/-- `parse_animation`. -/
def parse_animation (events : List XmlEvent) : Outcome (List Frame × List XmlEvent) :=
  parseAnimationLoop events []

/-- `ObjectShape`. -/
inductive ObjectShape where
  | Rect (width height : Rat)
  | Ellipse (width height : Rat)
  | Polyline (points : List (Rat × Rat))
  | Polygon (points : List (Rat × Rat))
  | Point (x y : Rat)
deriving Repr, DecidableEq

/-- `Object`. -/
structure Object where
  id : Nat
  gid : Nat
  name : String
  obj_type : String
  width : Rat
  height : Rat
  x : Rat
  y : Rat
  rotation : Rat
  visible : Bool
  shape : ObjectShape
  properties : Properties
deriving Repr, DecidableEq

/-- The per-point loop of `Object::parse_points`: each space-separated
piece splits on a comma into exactly two float coordinates. -/
def parsePointsGo : List (List Char) → Except TiledError (List (Rat × Rat))
  | [] => .ok []
  | p :: ps =>
    match splitOnAny [','] p with
    | [xs, ys] =>
      match (parseF32chars xs).toOption, (parseF32chars ys).toOption with
      | some x, some y =>
        match parsePointsGo ps with
        | .ok rest => .ok ((x, y) :: rest)
        | .error e => .error e
      | _, _ =>
        .error (.MalformedAttributes
          ("one of polyline's points does not have i32eger coordinates"))
    | _ =>
      .error (.MalformedAttributes
        ("one of a polyline's points does not have an x and y coordinate"))

/-- `Object::parse_points`. -/
def Object.parse_points (s : String) : Except TiledError (List (Rat × Rat)) :=
  parsePointsGo (splitOnAny [' '] s.data)

/-- Required `points` attribute of `<polyline>`/`<polygon>`. -/
def pointsAttr (attrs : List OwnedAttribute) (errMsg : String) : Except TiledError String :=
  let st := attrs.foldl (fun st a => if a.name = "points" then some a.value else st)
    (none : Option String)
  match st with
  | some s => .ok s
  | none => .error (.MalformedAttributes errMsg)

/-- `Object::new_polyline`. -/
def Object.new_polyline (attrs : List OwnedAttribute) : Except TiledError ObjectShape :=
  match pointsAttr attrs ("A polyline must have points") with
  | .error e => .error e
  | .ok s => (Object.parse_points s).map (fun pts => .Polyline pts)

/-- `Object::new_polygon`. -/
def Object.new_polygon (attrs : List OwnedAttribute) : Except TiledError ObjectShape :=
  match pointsAttr attrs ("A polygon must have points") with
  | .error e => .error e
  | .ok s => (Object.parse_points s).map (fun pts => .Polygon pts)

structure ObjectAttrs where
  id : Option Nat := none
  gid : Option Nat := none
  name : Option String := none
  obj_type : Option String := none
  width : Option Rat := none
  height : Option Rat := none
  visible : Option Bool := none
  rotation : Option Rat := none
  x : Option Rat := none
  y : Option Rat := none

def objectAttrStep (st : ObjectAttrs) (a : OwnedAttribute) : ObjectAttrs :=
  if a.name = "id" then { st with id := (parseU32chars a.value.data).toOption }
  else if a.name = "gid" then { st with gid := (parseU32chars a.value.data).toOption }
  else if a.name = "name" then { st with name := some a.value }
  else if a.name = "type" then { st with obj_type := some a.value }
  else if a.name = "width" then { st with width := (parseF32chars a.value.data).toOption }
  else if a.name = "height" then { st with height := (parseF32chars a.value.data).toOption }
  else if a.name = "visible" then
    { st with visible := ((parseI32chars a.value.data).toOption).map (fun x => x = 1) }
  else if a.name = "rotation" then
    { st with rotation := (parseF32chars a.value.data).toOption }
  else if a.name = "x" then { st with x := (parseF32chars a.value.data).toOption }
  else if a.name = "y" then { st with y := (parseF32chars a.value.data).toOption }
  else st

def objectAttrs (attrs : List OwnedAttribute) :
    Except TiledError (ObjectAttrs × Rat × Rat) :=
  let st := attrs.foldl objectAttrStep {}
  match st.x, st.y with
  | some x, some y => .ok (st, x, y)
  | _, _ => .error (.MalformedAttributes ("objects must have an x and a y number"))

structure ObjectLoopState where
  shape : Option ObjectShape := none
  properties : Properties := []
deriving Repr, DecidableEq

/-- The `parse_tag!` loop of `Object::new`. -/
def objectLoop (w h x y : Rat) : Nat → ObjectLoopState → List XmlEvent →
    Outcome (ObjectLoopState × List XmlEvent)
  | 0, _, _ => .diverge
  | _ + 1, _, [] => .diverge
  | fuel + 1, st, ev :: rest =>
    match ev with
    | .StartElement name attrs =>
      if name = "ellipse" then
        objectLoop w h x y fuel { st with shape := some (.Ellipse w h) } rest
      else if name = "polyline" then
        match Object.new_polyline attrs with
        | .ok sh => objectLoop w h x y fuel { st with shape := some sh } rest
        | .error e => .err e
      else if name = "polygon" then
        match Object.new_polygon attrs with
        | .ok sh => objectLoop w h x y fuel { st with shape := some sh } rest
        | .error e => .err e
      else if name = "point" then
        objectLoop w h x y fuel { st with shape := some (.Point x y) } rest
      else if name = "properties" then
        match parse_properties rest with
        | .ok (p, rest2) => objectLoop w h x y fuel { st with properties := p } rest2
        | .err e => .err e
        | .panic m => .panic m
        | .diverge => .diverge
      else objectLoop w h x y fuel st rest
    | .EndElement name =>
      if name = "object" then .ok (st, rest) else objectLoop w h x y fuel st rest
    | .EndDocument => .err (.PrematureEnd ("Document ended before we expected."))
    | _ => objectLoop w h x y fuel st rest

/-- `Object::new`. -/
def Object.new (fuel : Nat) (events : List XmlEvent) (attrs : List OwnedAttribute) :
    Outcome (Object × List XmlEvent) :=
  match objectAttrs attrs with
  | .error e => .err e
  | .ok (oa, x, y) =>
    let v := oa.visible.getD true
    let w := oa.width.getD 0
    let h := oa.height.getD 0
    let r := oa.rotation.getD 0
    let oid := oa.id.getD 0
    let ogid := oa.gid.getD 0
    let n := oa.name.getD ("")
    let t := oa.obj_type.getD ("")
    match objectLoop w h x y fuel {} events with
    | .ok (st, rest) =>
      .ok ({ id := oid, gid := ogid, name := n, obj_type := t, width := w, height := h,
             x := x, y := y, rotation := r, visible := v,
             shape := st.shape.getD (.Rect w h), properties := st.properties }, rest)
    | .err e => .err e
    | .panic m => .panic m
    | .diverge => .diverge

/-- `ObjectGroup`. -/
structure ObjectGroup where
  name : String
  opacity : Rat
  visible : Bool
  objects : List Object
  colour : Option Colour
  layer_index : Option Nat
  properties : Properties
deriving Repr, DecidableEq

structure ObjectGroupAttrs where
  opacity : Option Rat := none
  visible : Option Bool := none
  colour : Option Colour := none
  name : Option String := none

def objectGroupAttrStep (st : ObjectGroupAttrs) (a : OwnedAttribute) : ObjectGroupAttrs :=
  if a.name = "opacity" then { st with opacity := (parseF32chars a.value.data).toOption }
  else if a.name = "visible" then
    { st with visible := ((parseI32chars a.value.data).toOption).map (fun x => x = 1) }
  else if a.name = "color" then { st with colour := (Colour.fromStr a.value).toOption }
  else if a.name = "name" then { st with name := some a.value }
  else st

/-- The `parse_tag!` loop of `ObjectGroup::new`. -/
def objectGroupLoop : Nat → List Object × Properties → List XmlEvent →
    Outcome ((List Object × Properties) × List XmlEvent)
  | 0, _, _ => .diverge
  | _ + 1, _, [] => .diverge
  | fuel + 1, st, ev :: rest =>
    match ev with
    | .StartElement name attrs =>
      if name = "object" then
        match Object.new fuel rest attrs with
        | .ok (o, rest2) => objectGroupLoop fuel (st.1 ++ [o], st.2) rest2
        | .err e => .err e
        | .panic m => .panic m
        | .diverge => .diverge
      else if name = "properties" then
        match parse_properties rest with
        | .ok (p, rest2) => objectGroupLoop fuel (st.1, p) rest2
        | .err e => .err e
        | .panic m => .panic m
        | .diverge => .diverge
      else objectGroupLoop fuel st rest
    | .EndElement name =>
      if name = "objectgroup" then .ok (st, rest) else objectGroupLoop fuel st rest
    | .EndDocument => .err (.PrematureEnd ("Document ended before we expected."))
    | _ => objectGroupLoop fuel st rest

/-- `ObjectGroup::new`: no attribute is required, so the attribute scan
cannot fail. -/
def ObjectGroup.new (fuel : Nat) (events : List XmlEvent) (attrs : List OwnedAttribute)
    (layer_index : Option Nat) : Outcome (ObjectGroup × List XmlEvent) :=
  let st := attrs.foldl objectGroupAttrStep {}
  match objectGroupLoop fuel ([], []) events with
  | .ok (res, rest) =>
    .ok ({ name := st.name.getD (""), opacity := st.opacity.getD 1,
           visible := st.visible.getD true, objects := res.1, colour := st.colour,
           layer_index := layer_index, properties := res.2 }, rest)
  | .err e => .err e
  | .panic m => .panic m
  | .diverge => .diverge

/-- `Tile`. -/
structure Tile where
  id : Nat
  images : List Image
  properties : Properties
  objectgroup : Option ObjectGroup
  animation : Option (List Frame)
  tile_type : Option String
  probability : Rat
deriving Repr, DecidableEq

structure TileAttrs where
  tile_type : Option String := none
  probability : Option Rat := none
  id : Option Nat := none

def tileAttrStep (st : TileAttrs) (a : OwnedAttribute) : TileAttrs :=
  if a.name = "type" then { st with tile_type := some a.value }
  else if a.name = "probability" then
    { st with probability := (parseF32chars a.value.data).toOption }
  else if a.name = "id" then { st with id := (parseU32chars a.value.data).toOption }
  else st

def tileAttrs (attrs : List OwnedAttribute) :
    Except TiledError (Option String × Option Rat × Nat) :=
  let st := attrs.foldl tileAttrStep {}
  match st.id with
  | some i => .ok (st.tile_type, st.probability, i)
  | none => .error (.MalformedAttributes ("tile must have an id with the correct type"))

structure TileLoopState where
  images : List Image := []
  properties : Properties := []
  objectgroup : Option ObjectGroup := none
  animation : Option (List Frame) := none
deriving Repr, DecidableEq

/-- The `parse_tag!` loop of `Tile::new`. -/
def tileLoop : Nat → TileLoopState → List XmlEvent →
    Outcome (TileLoopState × List XmlEvent)
  | 0, _, _ => .diverge
  | _ + 1, _, [] => .diverge
  | fuel + 1, st, ev :: rest =>
    match ev with
    | .StartElement name attrs =>
      if name = "image" then
        match Image.new rest attrs with
        | .ok (im, rest2) => tileLoop fuel { st with images := st.images ++ [im] } rest2
        | .err e => .err e
        | .panic m => .panic m
        | .diverge => .diverge
      else if name = "properties" then
        match parse_properties rest with
        | .ok (p, rest2) => tileLoop fuel { st with properties := p } rest2
        | .err e => .err e
        | .panic m => .panic m
        | .diverge => .diverge
      else if name = "objectgroup" then
        match ObjectGroup.new fuel rest attrs none with
        | .ok (og, rest2) => tileLoop fuel { st with objectgroup := some og } rest2
        | .err e => .err e
        | .panic m => .panic m
        | .diverge => .diverge
      else if name = "animation" then
        match parse_animation rest with
        | .ok (an, rest2) => tileLoop fuel { st with animation := some an } rest2
        | .err e => .err e
        | .panic m => .panic m
        | .diverge => .diverge
      else tileLoop fuel st rest
    | .EndElement name => if name = "tile" then .ok (st, rest) else tileLoop fuel st rest
    | .EndDocument => .err (.PrematureEnd ("Document ended before we expected."))
    | _ => tileLoop fuel st rest

/-- `Tile::new`. -/
def Tile.new (fuel : Nat) (events : List XmlEvent) (attrs : List OwnedAttribute) :
    Outcome (Tile × List XmlEvent) :=
  match tileAttrs attrs with
  | .error e => .err e
  | .ok (tt, prob, i) =>
    match tileLoop fuel {} events with
    | .ok (st, rest) =>
      .ok ({ id := i, images := st.images, properties := st.properties,
             objectgroup := st.objectgroup, animation := st.animation,
             tile_type := tt, probability := prob.getD 1 }, rest)
    | .err e => .err e
    | .panic m => .panic m
    | .diverge => .diverge

/-- `Tileset`. -/
structure Tileset where
  first_gid : Nat
  name : String
  tile_width : Nat
  tile_height : Nat
  spacing : Nat
  margin : Nat
  tilecount : Option Nat
  columns : Nat
  images : List Image
  tiles : List Tile
  properties : Properties
deriving Repr, DecidableEq

structure TilesetAttrs where
  spacing : Option Nat := none
  margin : Option Nat := none
  tilecount : Option Nat := none
  first_gid : Option Nat := none
  name : Option String := none
  width : Option Nat := none
  height : Option Nat := none
  columns : Option Nat := none

def tilesetAttrStep (st : TilesetAttrs) (a : OwnedAttribute) : TilesetAttrs :=
  if a.name = "spacing" then { st with spacing := (parseU32chars a.value.data).toOption }
  else if a.name = "margin" then { st with margin := (parseU32chars a.value.data).toOption }
  else if a.name = "tilecount" then
    { st with tilecount := (parseU32chars a.value.data).toOption }
  else if a.name = "firstgid" then
    { st with first_gid := (parseU32chars a.value.data).toOption }
  else if a.name = "name" then { st with name := some a.value }
  else if a.name = "tilewidth" then { st with width := (parseU32chars a.value.data).toOption }
  else if a.name = "tileheight" then
    { st with height := (parseU32chars a.value.data).toOption }
  else if a.name = "columns" then { st with columns := (parseU32chars a.value.data).toOption }
  else st

def tilesetInternalAttrs (attrs : List OwnedAttribute) :
    Except TiledError (TilesetAttrs × Nat × String × Nat × Nat × Nat) :=
  let st := attrs.foldl tilesetAttrStep {}
  match st.first_gid, st.name, st.width, st.height, st.columns with
  | some fg, some n, some w, some h, some c => .ok (st, fg, n, w, h, c)
  | _, _, _, _, _ =>
    .error (.MalformedAttributes
      ("tileset must have a firstgid, name tile width and height with correct types"))

structure TilesetLoopState where
  images : List Image := []
  tiles : List Tile := []
  properties : Properties := []
deriving Repr, DecidableEq

/-- The `parse_tag!` loop shared (textually repeated in the source) by
`Tileset::new_internal` and `Tileset::parse_external_tileset`: the same
close tag and the same three handlers. -/
def tilesetLoop : Nat → TilesetLoopState → List XmlEvent →
    Outcome (TilesetLoopState × List XmlEvent)
  | 0, _, _ => .diverge
  | _ + 1, _, [] => .diverge
  | fuel + 1, st, ev :: rest =>
    match ev with
    | .StartElement name attrs =>
      if name = "image" then
        match Image.new rest attrs with
        | .ok (im, rest2) => tilesetLoop fuel { st with images := st.images ++ [im] } rest2
        | .err e => .err e
        | .panic m => .panic m
        | .diverge => .diverge
      else if name = "properties" then
        match parse_properties rest with
        | .ok (p, rest2) => tilesetLoop fuel { st with properties := p } rest2
        | .err e => .err e
        | .panic m => .panic m
        | .diverge => .diverge
      else if name = "tile" then
        match Tile.new fuel rest attrs with
        | .ok (t, rest2) => tilesetLoop fuel { st with tiles := st.tiles ++ [t] } rest2
        | .err e => .err e
        | .panic m => .panic m
        | .diverge => .diverge
      else tilesetLoop fuel st rest
    | .EndElement name => if name = "tileset" then .ok (st, rest) else tilesetLoop fuel st rest
    | .EndDocument => .err (.PrematureEnd ("Document ended before we expected."))
    | _ => tilesetLoop fuel st rest

/-- `Tileset::new_internal`: the embedded-definition schema. -/
def Tileset.new_internal (fuel : Nat) (events : List XmlEvent)
    (attrs : List OwnedAttribute) : Outcome (Tileset × List XmlEvent) :=
  match tilesetInternalAttrs attrs with
  | .error e => .err e
  | .ok (st, fg, n, w, h, c) =>
    match tilesetLoop fuel {} events with
    | .ok (ls, rest) =>
      .ok ({ tile_width := w, tile_height := h, spacing := st.spacing.getD 0,
             margin := st.margin.getD 0, first_gid := fg, name := n,
             tilecount := st.tilecount, columns := c, images := ls.images,
             tiles := ls.tiles, properties := ls.properties }, rest)
    | .err e => .err e
    | .panic m => .panic m
    | .diverge => .diverge

def tilesetExternalAttrs (attrs : List OwnedAttribute) :
    Except TiledError (TilesetAttrs × String × Nat × Nat × Nat) :=
  let st := attrs.foldl tilesetAttrStep {}
  match st.name, st.width, st.height, st.columns with
  | some n, some w, some h, some c => .ok (st, n, w, h, c)
  | _, _, _, _ =>
    .error (.MalformedAttributes
      ("tileset must have a firstgid, name, tilewidth, tileheight, and columns with correct types"))

/-- `Tileset::parse_external_tileset`. -/
def Tileset.parse_external_tileset (fuel : Nat) (first_gid : Nat)
    (events : List XmlEvent) (attrs : List OwnedAttribute) :
    Outcome (Tileset × List XmlEvent) :=
  match tilesetExternalAttrs attrs with
  | .error e => .err e
  | .ok (st, n, w, h, c) =>
    match tilesetLoop fuel {} events with
    | .ok (ls, rest) =>
      .ok ({ first_gid := first_gid, name := n, tile_width := w, tile_height := h,
             spacing := st.spacing.getD 0, margin := st.margin.getD 0,
             tilecount := st.tilecount, columns := c, images := ls.images,
             tiles := ls.tiles, properties := ls.properties }, rest)
    | .err e => .err e
    | .panic m => .panic m
    | .diverge => .diverge

/-- `Tileset::new_external`: scan the external document for its root
`<tileset>` element. -/
def Tileset.new_external (fuel : Nat) (first_gid : Nat) : List XmlEvent → Outcome Tileset
  | [] => .diverge
  | ev :: rest =>
    match ev with
    | .StartElement name attrs =>
      if name = "tileset" then
        match Tileset.parse_external_tileset fuel first_gid rest attrs with
        | .ok (t, _) => .ok t
        | .err e => .err e
        | .panic m => .panic m
        | .diverge => .diverge
      else Tileset.new_external fuel first_gid rest
    | .EndDocument =>
      .err (.PrematureEnd ("Tileset Document ended before map was parsed"))
    | _ => Tileset.new_external fuel first_gid rest

/-- `Path::with_file_name`: replace everything after the last `/`
(approximating `std::path` semantics on simple relative paths). -/
def withFileName (p s : String) : String :=
  let rev := p.data.reverse
  let keep := rev.dropWhile (fun c => c ≠ '/')
  ⟨keep.reverse ++ s.data⟩

structure TilesetRefAttrs where
  first_gid : Option Nat := none
  source : Option String := none

def tilesetRefAttrStep (st : TilesetRefAttrs) (a : OwnedAttribute) : TilesetRefAttrs :=
  if a.name = "firstgid" then
    { st with first_gid := (parseU32chars a.value.data).toOption }
  else if a.name = "source" then { st with source := some a.value }
  else st

def tilesetRefAttrs (attrs : List OwnedAttribute) : Except TiledError (Nat × String) :=
  let st := attrs.foldl tilesetRefAttrStep {}
  match st.first_gid, st.source with
  | some fg, some s => .ok (fg, s)
  | _, _ =>
    .error (.MalformedAttributes
      ("tileset must have a firstgid, name, tilewidth, tileheight, and columns with correct types"))

/-- `Tileset::new_reference`: the external-reference schema.  The
source-location check happens before any storage access. -/
def Tileset.new_reference (ext : Externals) (fuel : Nat) (attrs : List OwnedAttribute)
    (map_path : Option String) : Outcome Tileset :=
  match tilesetRefAttrs attrs with
  | .error e => .err e
  | .ok (first_gid, source) =>
    match map_path with
    | none =>
      .err (.Other
        ("Maps with external tilesets must know their file location.  See parse_with_path(Path)."))
    | some mp =>
      let tileset_path := withFileName mp source
      match ext.openFile tileset_path with
      | none =>
        .err (.Other ("External tileset file not found: \"" ++ tileset_path ++ "\""))
      | some fileEvents => Tileset.new_external fuel first_gid fileEvents

/-- `Tileset::new`: try the embedded-definition schema first, and only
on its `Err` retry the external-reference schema.  When the embedded
attempt fails, the source leaves the XML cursor wherever the failure
occurred; for the attribute-schema failure that external references
exercise, nothing has been consumed, which is the position this model
resumes from. -/
def Tileset.new (ext : Externals) (fuel : Nat) (events : List XmlEvent)
    (attrs : List OwnedAttribute) (map_path : Option String) :
    Outcome (Tileset × List XmlEvent) :=
  match Tileset.new_internal fuel events attrs with
  | .ok tr => .ok tr
  | .err _ =>
    match Tileset.new_reference ext fuel attrs map_path with
    | .ok t => .ok (t, events)
    | .err e => .err e
    | .panic m => .panic m
    | .diverge => .diverge
  | .panic m => .panic m
  | .diverge => .diverge

/-- `Chunk`. -/
structure Chunk where
  x : Int
  y : Int
  width : Nat
  height : Nat
  tiles : List (List LayerTile)
deriving Repr, DecidableEq

structure ChunkAttrs where
  x : Option Int := none
  y : Option Int := none
  width : Option Nat := none
  height : Option Nat := none

def chunkAttrStep (st : ChunkAttrs) (a : OwnedAttribute) : ChunkAttrs :=
  if a.name = "x" then { st with x := (parseI32chars a.value.data).toOption }
  else if a.name = "y" then { st with y := (parseI32chars a.value.data).toOption }
  else if a.name = "width" then { st with width := (parseU32chars a.value.data).toOption }
  else if a.name = "height" then { st with height := (parseU32chars a.value.data).toOption }
  else st

def chunkAttrs (attrs : List OwnedAttribute) :
    Except TiledError (Int × Int × Nat × Nat) :=
  let st := attrs.foldl chunkAttrStep {}
  match st.x, st.y, st.width, st.height with
  | some x, some y, some w, some h => .ok (x, y, w, h)
  | _, _, _, _ => .error (.MalformedAttributes ("layer must have a name"))

/-- `Chunk::new`. -/
def Chunk.new (ext : Externals) (events : List XmlEvent) (attrs : List OwnedAttribute)
    (encoding compression : Option String) : Outcome (Chunk × List XmlEvent) :=
  match chunkAttrs attrs with
  | .error e => .err e
  | .ok (x, y, w, h) =>
    match parse_data_line ext encoding compression events w with
    | .ok (tiles, rest) =>
      .ok ({ x := x, y := y, width := w, height := h, tiles := tiles }, rest)
    | .err e => .err e
    | .panic m => .panic m
    | .diverge => .diverge

/-- `LayerData`. -/
inductive LayerData where
  | Finite (tiles : List (List LayerTile))
  | Infinite (chunks : List ((Int × Int) × Chunk))
deriving Repr, DecidableEq

/-- `HashMap::insert` for the chunk mapping. -/
def chunkInsert (m : List ((Int × Int) × Chunk)) (k : Int × Int) (c : Chunk) :
    List ((Int × Int) × Chunk) :=
  (m.filter (fun kv => kv.1 ≠ k)) ++ [(k, c)]

/-- The optional `encoding`/`compression` attributes of `<data>` (the
expansion has no required attribute, so it cannot fail). -/
def dataAttrs (attrs : List OwnedAttribute) : Option String × Option String :=
  attrs.foldl (fun st a =>
    if a.name = "encoding" then (some a.value, st.2)
    else if a.name = "compression" then (st.1, some a.value)
    else st) (none, none)

/-- The `parse_tag!` loop of `parse_infinite_data` over `<chunk>`
children; chunks with a duplicate origin overwrite earlier ones. -/
def infiniteDataLoop (ext : Externals) (e c : Option String) :
    Nat → List ((Int × Int) × Chunk) → List XmlEvent →
    Outcome (List ((Int × Int) × Chunk) × List XmlEvent)
  | 0, _, _ => .diverge
  | _ + 1, _, [] => .diverge
  | fuel + 1, chunks, ev :: rest =>
    match ev with
    | .StartElement name attrs =>
      if name = "chunk" then
        match Chunk.new ext rest attrs e c with
        | .ok (ch, rest2) =>
          infiniteDataLoop ext e c fuel (chunkInsert chunks (ch.x, ch.y) ch) rest2
        | .err er => .err er
        | .panic m => .panic m
        | .diverge => .diverge
      else infiniteDataLoop ext e c fuel chunks rest
    | .EndElement name =>
      if name = "data" then .ok (chunks, rest) else infiniteDataLoop ext e c fuel chunks rest
    | .EndDocument => .err (.PrematureEnd ("Document ended before we expected."))
    | _ => infiniteDataLoop ext e c fuel chunks rest

/-- `parse_infinite_data`. -/
def parse_infinite_data (ext : Externals) (fuel : Nat) (events : List XmlEvent)
    (attrs : List OwnedAttribute) (_width : Nat) : Outcome (LayerData × List XmlEvent) :=
  let ec := dataAttrs attrs
  match infiniteDataLoop ext ec.1 ec.2 fuel [] events with
  | .ok (chunks, rest) => .ok (.Infinite chunks, rest)
  | .err e => .err e
  | .panic m => .panic m
  | .diverge => .diverge

/-- `parse_data`. -/
def parse_data (ext : Externals) (events : List XmlEvent) (attrs : List OwnedAttribute)
    (width : Nat) : Outcome (LayerData × List XmlEvent) :=
  let ec := dataAttrs attrs
  match parse_data_line ext ec.1 ec.2 events width with
  | .ok (tiles, rest) => .ok (.Finite tiles, rest)
  | .err e => .err e
  | .panic m => .panic m
  | .diverge => .diverge

/-- `Layer`. -/
structure Layer where
  name : String
  opacity : Rat
  visible : Bool
  offset_x : Rat
  offset_y : Rat
  tiles : LayerData
  properties : Properties
  layer_index : Nat
deriving Repr, DecidableEq

/-- The attribute schema shared (textually repeated in the source) by
`Layer::new` and `ImageLayer::new`. -/
structure LayerAttrs where
  opacity : Option Rat := none
  visible : Option Bool := none
  offset_x : Option Rat := none
  offset_y : Option Rat := none
  name : Option String := none

def layerAttrStep (st : LayerAttrs) (a : OwnedAttribute) : LayerAttrs :=
  if a.name = "opacity" then { st with opacity := (parseF32chars a.value.data).toOption }
  else if a.name = "visible" then
    { st with visible := ((parseI32chars a.value.data).toOption).map (fun x => x = 1) }
  else if a.name = "offsetx" then
    { st with offset_x := (parseF32chars a.value.data).toOption }
  else if a.name = "offsety" then
    { st with offset_y := (parseF32chars a.value.data).toOption }
  else if a.name = "name" then { st with name := some a.value }
  else st

def layerAttrs (attrs : List OwnedAttribute) : Except TiledError (LayerAttrs × String) :=
  let st := attrs.foldl layerAttrStep {}
  match st.name with
  | some n => .ok (st, n)
  | none => .error (.MalformedAttributes ("layer must have a name"))

/-- The `parse_tag!` loop of `Layer::new`. -/
def layerLoop (ext : Externals) (width : Nat) (infinite : Bool) :
    Nat → LayerData × Properties → List XmlEvent →
    Outcome ((LayerData × Properties) × List XmlEvent)
  | 0, _, _ => .diverge
  | _ + 1, _, [] => .diverge
  | fuel + 1, st, ev :: rest =>
    match ev with
    | .StartElement name attrs =>
      if name = "data" then
        match (if infinite then parse_infinite_data ext fuel rest attrs width
               else parse_data ext rest attrs width) with
        | .ok (ld, rest2) => layerLoop ext width infinite fuel (ld, st.2) rest2
        | .err e => .err e
        | .panic m => .panic m
        | .diverge => .diverge
      else if name = "properties" then
        match parse_properties rest with
        | .ok (p, rest2) => layerLoop ext width infinite fuel (st.1, p) rest2
        | .err e => .err e
        | .panic m => .panic m
        | .diverge => .diverge
      else layerLoop ext width infinite fuel st rest
    | .EndElement name =>
      if name = "layer" then .ok (st, rest) else layerLoop ext width infinite fuel st rest
    | .EndDocument => .err (.PrematureEnd ("Document ended before we expected."))
    | _ => layerLoop ext width infinite fuel st rest

/-- `Layer::new`. -/
def Layer.new (ext : Externals) (fuel : Nat) (events : List XmlEvent)
    (attrs : List OwnedAttribute) (width : Nat) (layer_index : Nat) (infinite : Bool) :
    Outcome (Layer × List XmlEvent) :=
  match layerAttrs attrs with
  | .error e => .err e
  | .ok (st, n) =>
    match layerLoop ext width infinite fuel (.Finite [], []) events with
    | .ok (res, rest) =>
      .ok ({ name := n, opacity := st.opacity.getD 1, visible := st.visible.getD true,
             offset_x := st.offset_x.getD 0, offset_y := st.offset_y.getD 0,
             tiles := res.1, properties := res.2, layer_index := layer_index }, rest)
    | .err e => .err e
    | .panic m => .panic m
    | .diverge => .diverge

/-- `ImageLayer`. -/
structure ImageLayer where
  name : String
  opacity : Rat
  visible : Bool
  offset_x : Rat
  offset_y : Rat
  image : Option Image
  properties : Properties
  layer_index : Nat
deriving Repr, DecidableEq

/-- The `parse_tag!` loop of `ImageLayer::new`. -/
def imageLayerLoop : Nat → Option Image × Properties → List XmlEvent →
    Outcome ((Option Image × Properties) × List XmlEvent)
  | 0, _, _ => .diverge
  | _ + 1, _, [] => .diverge
  | fuel + 1, st, ev :: rest =>
    match ev with
    | .StartElement name attrs =>
      if name = "image" then
        match Image.new rest attrs with
        | .ok (im, rest2) => imageLayerLoop fuel (some im, st.2) rest2
        | .err e => .err e
        | .panic m => .panic m
        | .diverge => .diverge
      else if name = "properties" then
        match parse_properties rest with
        | .ok (p, rest2) => imageLayerLoop fuel (st.1, p) rest2
        | .err e => .err e
        | .panic m => .panic m
        | .diverge => .diverge
      else imageLayerLoop fuel st rest
    | .EndElement name =>
      if name = "imagelayer" then .ok (st, rest) else imageLayerLoop fuel st rest
    | .EndDocument => .err (.PrematureEnd ("Document ended before we expected."))
    | _ => imageLayerLoop fuel st rest

/-- `ImageLayer::new`. -/
def ImageLayer.new (fuel : Nat) (events : List XmlEvent) (attrs : List OwnedAttribute)
    (layer_index : Nat) : Outcome (ImageLayer × List XmlEvent) :=
  match layerAttrs attrs with
  | .error e => .err e
  | .ok (st, n) =>
    match imageLayerLoop fuel (none, []) events with
    | .ok (res, rest) =>
      .ok ({ name := n, opacity := st.opacity.getD 1, visible := st.visible.getD true,
             offset_x := st.offset_x.getD 0, offset_y := st.offset_y.getD 0,
             image := res.1, properties := res.2, layer_index := layer_index }, rest)
    | .err e => .err e
    | .panic m => .panic m
    | .diverge => .diverge

/-- `Map`. -/
structure Map where
  version : String
  orientation : Orientation
  width : Nat
  height : Nat
  tile_width : Nat
  tile_height : Nat
  tilesets : List Tileset
  layers : List Layer
  image_layers : List ImageLayer
  object_groups : List ObjectGroup
  properties : Properties
  background_colour : Option Colour
  infinite : Bool
deriving Repr, DecidableEq

structure MapAttrs where
  colour : Option Colour := none
  infinite : Option Bool := none
  version : Option String := none
  orientation : Option Orientation := none
  width : Option Nat := none
  height : Option Nat := none
  tile_width : Option Nat := none
  tile_height : Option Nat := none

def mapAttrStep (st : MapAttrs) (a : OwnedAttribute) : MapAttrs :=
  if a.name = "backgroundcolor" then { st with colour := (Colour.fromStr a.value).toOption }
  else if a.name = "infinite" then { st with infinite := some (a.value = "1") }
  else if a.name = "version" then { st with version := some a.value }
  else if a.name = "orientation" then
    { st with orientation := (Orientation.fromStr a.value).toOption }
  else if a.name = "width" then { st with width := (parseU32chars a.value.data).toOption }
  else if a.name = "height" then { st with height := (parseU32chars a.value.data).toOption }
  else if a.name = "tilewidth" then
    { st with tile_width := (parseU32chars a.value.data).toOption }
  else if a.name = "tileheight" then
    { st with tile_height := (parseU32chars a.value.data).toOption }
  else st

def mapAttrs (attrs : List OwnedAttribute) :
    Except TiledError (MapAttrs × String × Orientation × Nat × Nat × Nat × Nat) :=
  let st := attrs.foldl mapAttrStep {}
  match st.version, st.orientation, st.width, st.height, st.tile_width, st.tile_height with
  | some v, some o, some w, some h, some tw, some th => .ok (st, v, o, w, h, tw, th)
  | _, _, _, _, _, _ =>
    .error (.MalformedAttributes
      ("map must have a version, width and height with correct types"))

/-- Accumulator of the `parse_tag!` loop of `Map::new`. -/
structure MapState where
  tilesets : List Tileset := []
  layers : List Layer := []
  image_layers : List ImageLayer := []
  properties : Properties := []
  object_groups : List ObjectGroup := []
  layer_index : Nat := 0
deriving Repr, DecidableEq

/-- The `parse_tag!` loop of `Map::new`: `layer_index` is incremented
after each `<layer>`, `<imagelayer>` or `<objectgroup>` child. -/
def mapLoop (ext : Externals) (map_path : Option String) (w : Nat) (infinite : Bool) :
    Nat → MapState → List XmlEvent → Outcome (MapState × List XmlEvent)
  | 0, _, _ => .diverge
  | _ + 1, _, [] => .diverge
  | fuel + 1, st, ev :: rest =>
    match ev with
    | .StartElement name attrs =>
      if name = "tileset" then
        match Tileset.new ext fuel rest attrs map_path with
        | .ok (t, rest2) =>
          mapLoop ext map_path w infinite fuel { st with tilesets := st.tilesets ++ [t] } rest2
        | .err e => .err e
        | .panic m => .panic m
        | .diverge => .diverge
      else if name = "layer" then
        match Layer.new ext fuel rest attrs w st.layer_index infinite with
        | .ok (l, rest2) =>
          mapLoop ext map_path w infinite fuel
            { st with layers := st.layers ++ [l], layer_index := st.layer_index + 1 } rest2
        | .err e => .err e
        | .panic m => .panic m
        | .diverge => .diverge
      else if name = "imagelayer" then
        match ImageLayer.new fuel rest attrs st.layer_index with
        | .ok (il, rest2) =>
          mapLoop ext map_path w infinite fuel
            { st with image_layers := st.image_layers ++ [il],
                      layer_index := st.layer_index + 1 } rest2
        | .err e => .err e
        | .panic m => .panic m
        | .diverge => .diverge
      else if name = "properties" then
        match parse_properties rest with
        | .ok (p, rest2) =>
          mapLoop ext map_path w infinite fuel { st with properties := p } rest2
        | .err e => .err e
        | .panic m => .panic m
        | .diverge => .diverge
      else if name = "objectgroup" then
        match ObjectGroup.new fuel rest attrs (some st.layer_index) with
        | .ok (og, rest2) =>
          mapLoop ext map_path w infinite fuel
            { st with object_groups := st.object_groups ++ [og],
                      layer_index := st.layer_index + 1 } rest2
        | .err e => .err e
        | .panic m => .panic m
        | .diverge => .diverge
      else mapLoop ext map_path w infinite fuel st rest
    | .EndElement name =>
      if name = "map" then .ok (st, rest) else mapLoop ext map_path w infinite fuel st rest
    | .EndDocument => .err (.PrematureEnd ("Document ended before we expected."))
    | _ => mapLoop ext map_path w infinite fuel st rest

/-- `Map::new`. -/
def Map.new (ext : Externals) (fuel : Nat) (events : List XmlEvent)
    (attrs : List OwnedAttribute) (map_path : Option String) :
    Outcome (Map × List XmlEvent) :=
  match mapAttrs attrs with
  | .error e => .err e
  | .ok (st, v, o, w, h, tw, th) =>
    match mapLoop ext map_path w (st.infinite.getD false) fuel {} events with
    | .ok (ms, rest) =>
      .ok ({ version := v, orientation := o, width := w, height := h, tile_width := tw,
             tile_height := th, tilesets := ms.tilesets, layers := ms.layers,
             image_layers := ms.image_layers, object_groups := ms.object_groups,
             properties := ms.properties, background_colour := st.colour,
             infinite := st.infinite.getD false }, rest)
    | .err e => .err e
    | .panic m => .panic m
    | .diverge => .diverge

/-- The source's `tileset.first_gid as i32`: a wrapping `u32 → i32`
cast. -/
def toI32 (n : Nat) : Int :=
  if n < 2 ^ 31 then (n : Int) else (n : Int) - 2 ^ 32

/-- The scan loop of `Map::get_tileset_by_gid`, with the running
maximum (an `i32` initialised to `-1`) and current best tileset. -/
def getTilesetByGidGo (gid : Nat) : List Tileset → Int → Option Tileset → Option Tileset
  | [], _, mts => mts
  | t :: rest, mg, mts =>
    if toI32 t.first_gid > mg ∧ t.first_gid ≤ gid then
      getTilesetByGidGo gid rest (toI32 t.first_gid) (some t)
    else getTilesetByGidGo gid rest mg mts

/-- `Map::get_tileset_by_gid`. -/
def Map.get_tileset_by_gid (m : Map) (gid : Nat) : Option Tileset :=
  getTilesetByGidGo gid m.tilesets (-1) none

/-- `parse_impl`: scan for the root `<map>` element. -/
def parse_impl (ext : Externals) (fuel : Nat) (map_path : Option String) :
    List XmlEvent → Outcome (Map × List XmlEvent)
  | [] => .diverge
  | ev :: rest =>
    match ev with
    | .StartElement name attrs =>
      if name = "map" then Map.new ext fuel rest attrs map_path
      else parse_impl ext fuel map_path rest
    | .EndDocument => .err (.PrematureEnd ("Document ended before map was parsed"))
    | _ => parse_impl ext fuel map_path rest

/-- `parse_with_path`. -/
def parse_with_path (ext : Externals) (fuel : Nat) (events : List XmlEvent)
    (path : String) : Outcome (Map × List XmlEvent) :=
  parse_impl ext fuel (some path) events

/-- `parse_file`. -/
def parse_file (ext : Externals) (fuel : Nat) (path : String) :
    Outcome (Map × List XmlEvent) :=
  match ext.openFile path with
  | none => .err (.Other ("Map file not found: \"" ++ path ++ "\""))
  | some events => parse_impl ext fuel (some path) events

/-- `parse` (no location context). -/
def parse (ext : Externals) (fuel : Nat) (events : List XmlEvent) :
    Outcome (Map × List XmlEvent) :=
  parse_impl ext fuel none events

/-- `parse_tileset`. -/
def parse_tileset (fuel : Nat) (events : List XmlEvent) (first_gid : Nat) :
    Outcome Tileset :=
  Tileset.new_external fuel first_gid events

/-- A trivial instantiation of the external collaborators, used by
concrete witnesses (none of which exercise the externals). -/
def trivialExt : Externals where
  base64decode := fun _ => .error ("no codec")
  zlibDecode := fun _ => .error ("no codec")
  gzipDecode := fun _ => .error ("no codec")
  openFile := fun _ => none

/-- Selector for `pickBest`: the earlier eligible tileset `t` beats
the best of the rest unless the latter's first-id is strictly
greater. -/
def consSel (t : Tileset) : Option Tileset → Option Tileset
  | none => some t
  | some u => if u.first_gid ≤ t.first_gid then some t else some u

/-- Selector relating an accumulator state to the best of a list. -/
def bestSel (mg : Int) (mts : Option Tileset) : Option Tileset → Option Tileset
  | none => mts
  | some u => if mg < (u.first_gid : Int) then some u else mts

/-- Reference recurrence for the scan of `get_tileset_by_gid` when all
first-ids are below `2^31` (so the `as i32` cast is the identity): the
earlier tileset is kept unless a strictly greater eligible first-id
appears later. -/
def pickBest (gid : Nat) : List Tileset → Option Tileset
  | [] => none
  | t :: rest =>
    if t.first_gid ≤ gid then consSel t (pickBest gid rest)
    else pickBest gid rest

/-- Fixture tileset for the concrete test maps. -/
def tsBase : Tileset :=
  { first_gid := 1, name := "base", tile_width := 16, tile_height := 16, spacing := 0,
    margin := 0, tilecount := none, columns := 1, images := [], tiles := [],
    properties := [] }

/-- Fixture map with no layers and no tilesets. -/
def mapBase : Map :=
  { version := "1.0", orientation := .Orthogonal, width := 1, height := 1,
    tile_width := 16, tile_height := 16, tilesets := [], layers := [],
    image_layers := [], object_groups := [], properties := [],
    background_colour := none, infinite := false }

/-- A tileset whose first-id has bit 31 set. -/
def tsBig : Tileset := { tsBase with first_gid := 2 ^ 31, name := "big" }

/-- Map holding only `tsBig`. -/
def mapBig : Map := { mapBase with tilesets := [tsBig] }

def ts1 : Tileset := { tsBase with first_gid := 1, name := "t1" }

def ts50 : Tileset := { tsBase with first_gid := 50, name := "t50" }

def ts100 : Tileset := { tsBase with first_gid := 100, name := "t100" }

/-- Map with tileset first-ids 1, 50, 100. -/
def map150 : Map := { mapBase with tilesets := [ts1, ts50, ts100] }

def tsA5 : Tileset := { tsBase with first_gid := 5, name := "a" }

def tsB5 : Tileset := { tsBase with first_gid := 5, name := "b" }

/-- Map with two tilesets sharing first-id 5. -/
def mapDup : Map := { mapBase with tilesets := [tsA5, tsB5] }

/-- The layer indices of a parsed map, tile layers then image layers
then object groups. -/
def mapLayerIndexes (m : Map) : List Nat :=
  m.layers.map Layer.layer_index ++ m.image_layers.map ImageLayer.layer_index ++
    m.object_groups.filterMap ObjectGroup.layer_index

/-- Invariant of the `Map::new` loop accumulator: every object group
holds an index, the indices assigned so far are exactly
`0 … idx - 1`, and each list's own indices increase strictly. -/
def IdxInv (ls : List Layer) (ils : List ImageLayer) (ogs : List ObjectGroup)
    (idx : Nat) : Prop :=
  (∀ og ∈ ogs, (ObjectGroup.layer_index og).isSome) ∧
  ((ls.map Layer.layer_index ++ ils.map ImageLayer.layer_index ++
      ogs.filterMap ObjectGroup.layer_index : List Nat) : Multiset Nat) =
    Multiset.range idx ∧
  List.Chain' (· < ·) (ls.map Layer.layer_index) ∧
  List.Chain' (· < ·) (ils.map ImageLayer.layer_index) ∧
  List.Chain' (· < ·) (ogs.filterMap ObjectGroup.layer_index)

/-- Child events of a map with an alternating `<layer>`,
`<objectgroup>`, `<imagelayer>`, `<layer>` sequence. -/
def c5events : List XmlEvent :=
  [.StartElement "layer" [⟨"name", "a"⟩], .EndElement "layer",
   .StartElement "objectgroup" [], .EndElement "objectgroup",
   .StartElement "imagelayer" [⟨"name", "b"⟩], .EndElement "imagelayer",
   .StartElement "layer" [⟨"name", "c"⟩], .EndElement "layer",
   .EndElement "map"]

/-- The `<map>` attributes used with `c5events`. -/
def c5attrs : List OwnedAttribute :=
  [⟨"version", "1.0"⟩, ⟨"orientation", "orthogonal"⟩, ⟨"width", "2"⟩,
   ⟨"height", "2"⟩, ⟨"tilewidth", "16"⟩, ⟨"tileheight", "16"⟩]

/-- The map produced by `Map.new` on `c5events`/`c5attrs`. -/
def c5map : Map :=
  { version := "1.0", orientation := .Orthogonal, width := 2, height := 2,
    tile_width := 16, tile_height := 16, tilesets := [],
    layers :=
      [{ name := "a", opacity := 1, visible := true, offset_x := 0, offset_y := 0,
         tiles := .Finite [], properties := [], layer_index := 0 },
       { name := "c", opacity := 1, visible := true, offset_x := 0, offset_y := 0,
         tiles := .Finite [], properties := [], layer_index := 3 }],
    image_layers :=
      [{ name := "b", opacity := 1, visible := true, offset_x := 0, offset_y := 0,
         image := none, properties := [], layer_index := 2 }],
    object_groups :=
      [{ name := "", opacity := 1, visible := true, objects := [], colour := none,
         layer_index := some 1, properties := [] }],
    properties := [], background_colour := none, infinite := false }

theorem layerTile_new_gid (raw : Nat) : (LayerTile.new raw).gid = raw % 2 ^ 29 := by
  show raw &&& NOT_ALL_FLIP_FLAGS = raw % 2 ^ 29
  have h : NOT_ALL_FLIP_FLAGS = 2 ^ 29 - 1 := by decide
  rw [h, Nat.and_pow_two_sub_one_eq_mod]

theorem and_flag_beq (raw i : Nat) : ((raw &&& 2 ^ i) == 2 ^ i) = raw.testBit i := by
  rw [Nat.and_two_pow]
  cases h : raw.testBit i
  · have hp := Nat.two_pow_pos i
    simp
    omega
  · simp

theorem toNat_mod_two (b : Bool) : decide (b.toNat % 2 = 1) = b := by
  cases b <;> decide

theorem layerTile_new_flip_h (raw : Nat) : (LayerTile.new raw).flip_h = raw.testBit 31 := by
  show ((raw &&& ALL_FLIP_FLAGS) &&& FLIPPED_HORIZONTALLY_FLAG ==
    FLIPPED_HORIZONTALLY_FLAG) = raw.testBit 31
  rw [Nat.and_assoc]
  have h1 : ALL_FLIP_FLAGS &&& FLIPPED_HORIZONTALLY_FLAG = FLIPPED_HORIZONTALLY_FLAG := by decide
  have h2 : FLIPPED_HORIZONTALLY_FLAG = 2 ^ 31 := by decide
  rw [h1, h2, and_flag_beq]

theorem layerTile_new_flip_v (raw : Nat) : (LayerTile.new raw).flip_v = raw.testBit 30 := by
  show ((raw &&& ALL_FLIP_FLAGS) &&& FLIPPED_VERTICALLY_FLAG ==
    FLIPPED_VERTICALLY_FLAG) = raw.testBit 30
  rw [Nat.and_assoc]
  have h1 : ALL_FLIP_FLAGS &&& FLIPPED_VERTICALLY_FLAG = FLIPPED_VERTICALLY_FLAG := by decide
  have h2 : FLIPPED_VERTICALLY_FLAG = 2 ^ 30 := by decide
  rw [h1, h2, and_flag_beq]

theorem layerTile_new_flip_d (raw : Nat) : (LayerTile.new raw).flip_d = raw.testBit 29 := by
  show ((raw &&& ALL_FLIP_FLAGS) &&& FLIPPED_DIAGONALLY_FLAG ==
    FLIPPED_DIAGONALLY_FLAG) = raw.testBit 29
  rw [Nat.and_assoc]
  have h1 : ALL_FLIP_FLAGS &&& FLIPPED_DIAGONALLY_FLAG = FLIPPED_DIAGONALLY_FLAG := by decide
  have h2 : FLIPPED_DIAGONALLY_FLAG = 2 ^ 29 := by decide
  rw [h1, h2, and_flag_beq]

theorem toNat_testBit_zero (b : Bool) : b.toNat.testBit 0 = b := by
  cases b <;> decide

theorem toNat_testBit_pos (b : Bool) (k : Nat) (hk : 0 < k) : b.toNat.testBit k = false := by
  apply Nat.testBit_lt_two_pow
  calc b.toNat < 2 ^ 1 := by cases b <;> decide
  _ ≤ 2 ^ k := Nat.pow_le_pow_right (by decide) hk

/-- C1: for every 32-bit raw tile identifier, `LayerTile::new` produces
a `gid` with none of bits 29, 30, 31 set, flip flags equal to bits 31,
30, 29 of the raw value, and `gid ||| flip_h<<<31 ||| flip_v<<<30 |||
flip_d<<<29` recomposes the raw value exactly. -/
theorem layerTile_new_bits (raw : Nat) (h : raw < 2 ^ 32) :
    (LayerTile.new raw).gid.testBit 29 = false ∧
    (LayerTile.new raw).gid.testBit 30 = false ∧
    (LayerTile.new raw).gid.testBit 31 = false ∧
    (LayerTile.new raw).flip_h = raw.testBit 31 ∧
    (LayerTile.new raw).flip_v = raw.testBit 30 ∧
    (LayerTile.new raw).flip_d = raw.testBit 29 ∧
    ((LayerTile.new raw).gid |||
      ((LayerTile.new raw).flip_h.toNat <<< 31) |||
      ((LayerTile.new raw).flip_v.toNat <<< 30) |||
      ((LayerTile.new raw).flip_d.toNat <<< 29)) = raw := by
  refine ⟨?_, ?_, ?_, layerTile_new_flip_h raw, layerTile_new_flip_v raw,
    layerTile_new_flip_d raw, ?_⟩
  · rw [layerTile_new_gid, Nat.testBit_mod_two_pow]; simp
  · rw [layerTile_new_gid, Nat.testBit_mod_two_pow]; simp
  · rw [layerTile_new_gid, Nat.testBit_mod_two_pow]; simp
  · rw [layerTile_new_gid, layerTile_new_flip_h, layerTile_new_flip_v, layerTile_new_flip_d]
    apply Nat.eq_of_testBit_eq
    intro j
    simp only [Nat.testBit_or, Nat.testBit_shiftLeft, Nat.testBit_mod_two_pow, ge_iff_le]
    by_cases h29 : j < 29
    · simp [h29, show ¬ 29 ≤ j by omega, show ¬ 30 ≤ j by omega, show ¬ 31 ≤ j by omega]
    · by_cases e29 : j = 29
      · subst e29
        simp [toNat_testBit_zero, toNat_mod_two, show ¬ 30 ≤ 29 by omega,
          show ¬ 31 ≤ 29 by omega]
      · by_cases e30 : j = 30
        · subst e30
          simp [toNat_testBit_zero, toNat_mod_two, toNat_testBit_pos,
            show ¬ 31 ≤ 30 by omega]
        · by_cases e31 : j = 31
          · subst e31
            simp [toNat_testBit_zero, toNat_mod_two, toNat_testBit_pos]
          · have h32 : 32 ≤ j := by omega
            have hr : raw.testBit j = false := by
              apply Nat.testBit_lt_two_pow
              calc raw < 2 ^ 32 := h
              _ ≤ 2 ^ j := Nat.pow_le_pow_right (by decide) h32
            simp [hr, h29, toNat_testBit_pos, show 0 < j - 29 by omega,
              show 0 < j - 30 by omega, show 0 < j - 31 by omega]

/-- Witness for C1 at the concrete raw id `0xA0000007`. -/
theorem layerTile_new_bits_witness :
    ((LayerTile.new 0xA0000007).gid |||
      ((LayerTile.new 0xA0000007).flip_h.toNat <<< 31) |||
      ((LayerTile.new 0xA0000007).flip_v.toNat <<< 30) |||
      ((LayerTile.new 0xA0000007).flip_d.toNat <<< 29)) = 0xA0000007 :=
  (layerTile_new_bits 0xA0000007 (by norm_num)).2.2.2.2.2.2

/-- C3: the binary interpret step is not bounds-safe.  On the one-byte
buffer `[0]` with width 1, `chunks(4)` yields the short chunk `[0]` and
the source's `chunk[start + 3]` read indexes out of bounds and panics
(a `Vec<u8>` of length 1 is a valid decoded payload, e.g. of a
truncated base64 text).  The claim's positive half holds only for
buffers whose length is an exact multiple of `width * 4`
(`convert_to_tile_exact` below documents it), so the universal
bounds-safety claim is contradicted by the code. -/
theorem convert_to_tile_oob_panic :
    convert_to_tile [0] 1 = .panic ("index out of bounds") := by rfl

/-- C8: CSV decoding is not total.  On content `"1,x,3"` the token
`"x"` survives the blank filter, its `parse::<u32>()` returns `Err`,
and the source's `.unwrap()` panics instead of returning a typed
`TiledError`. -/
theorem decode_csv_unwrap_panic :
    decode_csv 3 [XmlEvent.Characters "1,x,3", XmlEvent.EndElement "data"] =
      .panic ("called `Result::unwrap()` on an `Err` value") := by rfl

theorem parse_base64_skip (ext : Externals) (e : XmlEvent) (l : List XmlEvent)
    (h1 : ∀ s, e ≠ XmlEvent.Characters s) (h2 : e ≠ XmlEvent.EndElement "data") :
    parse_base64 ext (e :: l) = parse_base64 ext l := by
  cases e with
  | Characters s => exact absurd rfl (h1 s)
  | EndElement n =>
    have hn : ¬ n = "data" := fun h => h2 (by rw [h])
    simp [parse_base64, hn]
  | StartDocument => simp [parse_base64]
  | StartElement n a => simp [parse_base64]
  | Whitespace s => simp [parse_base64]
  | CData s => simp [parse_base64]
  | Comment s => simp [parse_base64]
  | ProcessingInstruction s => simp [parse_base64]
  | EndDocument => simp [parse_base64]

theorem decode_csv_skip (width : Nat) (e : XmlEvent) (l : List XmlEvent)
    (h1 : ∀ s, e ≠ XmlEvent.Characters s) (h2 : e ≠ XmlEvent.EndElement "data") :
    decode_csv width (e :: l) = decode_csv width l := by
  cases e with
  | Characters s => exact absurd rfl (h1 s)
  | EndElement n =>
    have hn : ¬ n = "data" := fun h => h2 (by rw [h])
    simp [decode_csv, hn]
  | StartDocument => simp [decode_csv]
  | StartElement n a => simp [decode_csv]
  | Whitespace s => simp [decode_csv]
  | CData s => simp [decode_csv]
  | Comment s => simp [decode_csv]
  | ProcessingInstruction s => simp [decode_csv]
  | EndDocument => simp [decode_csv]

/-- C10: when the `<data>` element closes before any character content
is seen, the base64 path returns `Ok` with an empty byte buffer and the
CSV path returns `Ok` with a grid of zero rows, for any events in
between that are neither character content nor `</data>`. -/
theorem empty_data_element_ok (ext : Externals) (width : Nat) (pre rest : List XmlEvent)
    (hpre : ∀ e ∈ pre, (∀ s, e ≠ XmlEvent.Characters s) ∧ e ≠ XmlEvent.EndElement "data") :
    parse_base64 ext (pre ++ XmlEvent.EndElement "data" :: rest) = .ok ([], rest) ∧
    decode_csv width (pre ++ XmlEvent.EndElement "data" :: rest) = .ok ([], rest) := by
  induction pre with
  | nil => exact ⟨by simp [parse_base64], by simp [decode_csv]⟩
  | cons e pre ih =>
    have he := hpre e (List.mem_cons_self ..)
    have ih' := ih (fun x hx => hpre x (List.mem_cons_of_mem _ hx))
    rw [List.cons_append]
    rw [parse_base64_skip ext e _ he.1 he.2, decode_csv_skip width e _ he.1 he.2]
    exact ih'

/-- Witness for C10 with one skipped event before the closing tag. -/
theorem empty_data_element_ok_witness :
    parse_base64 trivialExt
        [XmlEvent.EndDocument, XmlEvent.EndElement "data", XmlEvent.EndDocument] =
      .ok ([], [XmlEvent.EndDocument]) ∧
    decode_csv 7 [XmlEvent.EndDocument, XmlEvent.EndElement "data", XmlEvent.EndDocument] =
      .ok ([], [XmlEvent.EndDocument]) :=
  empty_data_element_ok trivialExt 7 [XmlEvent.EndDocument] [XmlEvent.EndDocument]
    (by
      intro e hemem
      rw [List.mem_singleton] at hemem
      subst hemem
      exact ⟨fun s h => (nomatch h), fun h => nomatch h⟩)

/-- C7 (counterexample): on declared type `"color"` with a value of
length at most 1, the guard `value.len() > 1` fails, matching falls
through to the catch-all arm, and the error is the unknown-property-
type one, not the improperly-formatted-color one the claim states. -/
theorem propertyValue_color_short_counterexample :
    PropertyValue.new "color" "" = .error (.Other ("Unknown property type \"color\"")) ∧
    TiledError.Other ("Unknown property type \"color\"") ≠
      TiledError.Other ("Improperly formatted color property") := by
  constructor
  · rfl
  · decide

/-- C7 (amended): `("color", v)` parses the hex tail exactly when the
value's length exceeds 1; a malformed tail then gives the improperly-
formatted-color error, while a length of at most 1 falls through to
the unknown-property-type error.  In particular `("color", "#ff0000")`
yields `ColorValue 0xff0000`. -/
theorem propertyValue_color_spec (v : String) :
    (PropertyValue.new "color" "#ff0000" = .ok (.ColorValue 0xff0000)) ∧
    (1 < v.data.length →
      PropertyValue.new "color" v =
        match parseHexU32chars (v.data.drop 1) with
        | .ok c => .ok (.ColorValue c)
        | .error _ => .error (.Other ("Improperly formatted color property"))) ∧
    (v.data.length ≤ 1 →
      PropertyValue.new "color" v = .error (.Other ("Unknown property type \"color\""))) := by
  refine ⟨by rfl, ?_, ?_⟩
  · intro h
    unfold PropertyValue.new
    rw [if_neg (by decide), if_neg (by decide), if_neg (by decide),
      if_pos (⟨rfl, h⟩ : "color" = "color" ∧ 1 < v.data.length)]
  · intro h
    unfold PropertyValue.new
    rw [if_neg (by decide), if_neg (by decide), if_neg (by decide),
      if_neg (fun hc : "color" = "color" ∧ 1 < v.data.length => by omega),
      if_neg (by decide), if_neg (by decide)]
    rfl

/-- Witness for C7 at a malformed tail of length over 1 and at a value
of length 1. -/
theorem propertyValue_color_spec_witness :
    PropertyValue.new "color" "#zz" =
      .error (.Other ("Improperly formatted color property")) ∧
    PropertyValue.new "color" "#" = .error (.Other ("Unknown property type \"color\"")) := by
  have h1 := (propertyValue_color_spec "#zz").2.1 (by decide)
  have h2 := (propertyValue_color_spec "#").2.2 (by decide)
  exact ⟨by rw [h1]; rfl, h2⟩

theorem toI32_of_lt (n : Nat) (h : n < 2 ^ 31) : toI32 n = (n : Int) := by
  unfold toI32
  rw [if_pos h]

theorem getTilesetByGidGo_cons (gid : Nat) (t : Tileset) (rest : List Tileset)
    (mg : Int) (mts : Option Tileset) :
    getTilesetByGidGo gid (t :: rest) mg mts =
      if toI32 t.first_gid > mg ∧ t.first_gid ≤ gid then
        getTilesetByGidGo gid rest (toI32 t.first_gid) (some t)
      else getTilesetByGidGo gid rest mg mts := rfl

theorem pickBest_cons (gid : Nat) (t : Tileset) (rest : List Tileset) :
    pickBest gid (t :: rest) =
      if t.first_gid ≤ gid then consSel t (pickBest gid rest)
      else pickBest gid rest := rfl

theorem getTilesetByGidGo_pickBest (gid : Nat) (l : List Tileset)
    (hl : ∀ t ∈ l, t.first_gid < 2 ^ 31) (mg : Int) (mts : Option Tileset) :
    getTilesetByGidGo gid l mg mts = bestSel mg mts (pickBest gid l) := by
  induction l generalizing mg mts with
  | nil => rfl
  | cons t rest ih =>
    have ht : t.first_gid < 2 ^ 31 := hl t (List.mem_cons_self ..)
    have hrest : ∀ u ∈ rest, u.first_gid < 2 ^ 31 :=
      fun u hu => hl u (List.mem_cons_of_mem _ hu)
    rw [getTilesetByGidGo_cons, toI32_of_lt _ ht, pickBest_cons]
    by_cases hc : (t.first_gid : Int) > mg ∧ t.first_gid ≤ gid
    · rw [if_pos hc, if_pos hc.2, ih hrest]
      cases hpb : pickBest gid rest with
      | none =>
        simp only [consSel, bestSel]
        rw [if_pos hc.1]
      | some u =>
        simp only [consSel, bestSel]
        by_cases hle : u.first_gid ≤ t.first_gid
        · rw [if_pos hle]
          simp only [bestSel]
          rw [if_neg (by omega : ¬ (t.first_gid : Int) < (u.first_gid : Int)),
            if_pos hc.1]
        · rw [if_neg hle]
          simp only [bestSel]
          have h1 : (t.first_gid : Int) < (u.first_gid : Int) := by omega
          have h2 : mg < (u.first_gid : Int) := by omega
          rw [if_pos h1, if_pos h2]
    · rw [if_neg hc, ih hrest]
      by_cases hel : t.first_gid ≤ gid
      · have hmg : (t.first_gid : Int) ≤ mg := by
          rcases not_and_or.mp hc with h1 | h2
          · omega
          · exact absurd hel h2
        rw [if_pos hel]
        cases hpb : pickBest gid rest with
        | none =>
          simp only [consSel, bestSel]
          rw [if_neg (by omega : ¬ mg < (t.first_gid : Int))]
        | some u =>
          simp only [consSel, bestSel]
          by_cases hle : u.first_gid ≤ t.first_gid
          · rw [if_pos hle]
            simp only [bestSel]
            rw [if_neg (by omega : ¬ mg < (t.first_gid : Int)),
              if_neg (by omega : ¬ mg < (u.first_gid : Int))]
          · rw [if_neg hle]
      · rw [if_neg hel]

theorem consSel_ne_none (t : Tileset) (o : Option Tileset) : consSel t o ≠ none := by
  cases o with
  | none => simp [consSel]
  | some u =>
    simp only [consSel]
    by_cases hle : u.first_gid ≤ t.first_gid
    · rw [if_pos hle]; simp
    · rw [if_neg hle]; simp

theorem pickBest_eq_none (gid : Nat) (l : List Tileset) :
    pickBest gid l = none ↔ ∀ t ∈ l, ¬ t.first_gid ≤ gid := by
  induction l with
  | nil => simp [pickBest]
  | cons t rest ih =>
    rw [pickBest_cons]
    by_cases hel : t.first_gid ≤ gid
    · rw [if_pos hel]
      constructor
      · intro h
        exact absurd h (consSel_ne_none t _)
      · intro h
        exact absurd hel (h t (List.mem_cons_self ..))
    · rw [if_neg hel, ih]
      constructor
      · intro h u hu
        rcases List.mem_cons.mp hu with rfl | hu2
        · exact hel
        · exact h u hu2
      · intro h u hu
        exact h u (List.mem_cons_of_mem _ hu)

theorem pickBest_spec (gid : Nat) (l : List Tileset) (u : Tileset)
    (h : pickBest gid l = some u) :
    u ∈ l ∧ u.first_gid ≤ gid ∧
      ∀ t ∈ l, t.first_gid ≤ gid → t.first_gid ≤ u.first_gid := by
  induction l generalizing u with
  | nil => exact absurd h (by simp [pickBest])
  | cons t rest ih =>
    rw [pickBest_cons] at h
    by_cases hel : t.first_gid ≤ gid
    · rw [if_pos hel] at h
      cases hpb : pickBest gid rest with
      | none =>
        rw [hpb] at h
        simp only [consSel] at h
        obtain rfl : t = u := Option.some.inj h
        have hrest := (pickBest_eq_none gid rest).mp hpb
        refine ⟨List.mem_cons_self .., hel, ?_⟩
        intro x hx hxel
        rcases List.mem_cons.mp hx with rfl | hx2
        · exact le_refl _
        · exact absurd hxel (hrest x hx2)
      | some w =>
        rw [hpb] at h
        simp only [consSel] at h
        obtain ⟨hwmem, hwel, hwmax⟩ := ih w hpb
        by_cases hle : w.first_gid ≤ t.first_gid
        · rw [if_pos hle] at h
          obtain rfl : t = u := Option.some.inj h
          refine ⟨List.mem_cons_self .., hel, ?_⟩
          intro x hx hxel
          rcases List.mem_cons.mp hx with rfl | hx2
          · exact le_refl _
          · exact le_trans (hwmax x hx2 hxel) hle
        · rw [if_neg hle] at h
          obtain rfl : w = u := Option.some.inj h
          refine ⟨List.mem_cons_of_mem _ hwmem, hwel, ?_⟩
          intro x hx hxel
          rcases List.mem_cons.mp hx with rfl | hx2
          · omega
          · exact hwmax x hx2 hxel
    · rw [if_neg hel] at h
      obtain ⟨hm, he, hx⟩ := ih u h
      refine ⟨List.mem_cons_of_mem _ hm, he, ?_⟩
      intro x hx2 hxel
      rcases List.mem_cons.mp hx2 with rfl | hx3
      · exact absurd hxel hel
      · exact hx x hx3 hxel

theorem pickBest_eq_find (gid : Nat) (F : Nat) (hF : F ≤ gid) (l : List Tileset)
    (hmax : ∀ t ∈ l, t.first_gid ≤ gid → t.first_gid ≤ F)
    (hex : ∃ t ∈ l, t.first_gid = F) :
    pickBest gid l = l.find? (fun t => t.first_gid == F) := by
  induction l with
  | nil => simp at hex
  | cons t rest ih =>
    by_cases htF : t.first_gid = F
    · rw [List.find?_cons_of_pos _ (by simp [htF]), pickBest_cons,
        if_pos (htF ▸ hF)]
      cases hpb : pickBest gid rest with
      | none => rfl
      | some w =>
        obtain ⟨hwmem, hwel, _⟩ := pickBest_spec gid rest w hpb
        have hwle : w.first_gid ≤ F := hmax w (List.mem_cons_of_mem _ hwmem) hwel
        simp only [consSel]
        rw [if_pos (by omega : w.first_gid ≤ t.first_gid)]
    · have hex' : ∃ x ∈ rest, x.first_gid = F := by
        obtain ⟨x, hx, hxF⟩ := hex
        rcases List.mem_cons.mp hx with rfl | h2
        · exact absurd hxF htF
        · exact ⟨x, h2, hxF⟩
      have hmax' : ∀ x ∈ rest, x.first_gid ≤ gid → x.first_gid ≤ F :=
        fun x hx => hmax x (List.mem_cons_of_mem _ hx)
      rw [List.find?_cons_of_neg _ (by simp [htF]), pickBest_cons]
      by_cases hel : t.first_gid ≤ gid
      · rw [if_pos hel]
        have htlt : t.first_gid < F :=
          lt_of_le_of_ne (hmax t (List.mem_cons_self ..) hel) htF
        cases hpb : pickBest gid rest with
        | none =>
          obtain ⟨x, hx, hxF⟩ := hex'
          have := (pickBest_eq_none gid rest).mp hpb x hx
          exact absurd (hxF ▸ hF) this
        | some w =>
          have hfind : rest.find? (fun t => t.first_gid == F) = some w := by
            rw [← ih hmax' hex', hpb]
          have hwF : w.first_gid = F := by
            have := List.find?_some hfind
            simpa using this
          simp only [consSel]
          rw [if_neg (by omega : ¬ w.first_gid ≤ t.first_gid), ← hfind]
      · rw [if_neg hel]
        exact ih hmax' hex'

/-- C2 (counterexample): the scan casts `first_gid` to `i32`, so a
tileset whose first-id has bit 31 set is never selected: with a single
tileset of first-id `2^31` and target gid `2^31` (where that tileset
has the greatest first-id not exceeding the target), the lookup
returns `none` instead of that tileset. -/
theorem get_tileset_by_gid_cast_counterexample :
    tsBig.first_gid ≤ 2 ^ 31 ∧ tsBig ∈ mapBig.tilesets ∧
    mapBig.get_tileset_by_gid (2 ^ 31) = none := by
  refine ⟨by decide, List.mem_singleton.mpr rfl, by rfl⟩

/-- C2 (amended): provided every tileset first-id is below `2^31`,
`get_tileset_by_gid` returns a tileset of the map whose first-id is
the greatest one not exceeding the target gid, and `none` exactly when
the target is below every first-id. -/
theorem get_tileset_by_gid_spec (m : Map) (gid : Nat)
    (hl : ∀ t ∈ m.tilesets, t.first_gid < 2 ^ 31) :
    ((∀ t ∈ m.tilesets, ¬ t.first_gid ≤ gid) → m.get_tileset_by_gid gid = none) ∧
    (∀ t ∈ m.tilesets, t.first_gid ≤ gid →
      ∃ u, m.get_tileset_by_gid gid = some u ∧ u ∈ m.tilesets ∧ u.first_gid ≤ gid ∧
        ∀ v ∈ m.tilesets, v.first_gid ≤ gid → v.first_gid ≤ u.first_gid) := by
  unfold Map.get_tileset_by_gid
  rw [getTilesetByGidGo_pickBest gid m.tilesets hl]
  constructor
  · intro h
    rw [(pickBest_eq_none gid m.tilesets).mpr h]
    rfl
  · intro t ht hel
    cases hpb : pickBest gid m.tilesets with
    | none => exact absurd hel ((pickBest_eq_none gid _).mp hpb t ht)
    | some u =>
      obtain ⟨hmem, huel, hmax⟩ := pickBest_spec gid _ u hpb
      refine ⟨u, ?_, hmem, huel, hmax⟩
      simp only [bestSel]
      rw [if_pos (by omega : (-1 : Int) < (u.first_gid : Int))]

/-- Witness for C2 on the spec's map with first-ids 1, 50, 100. -/
theorem get_tileset_by_gid_spec_witness :
    map150.get_tileset_by_gid 0 = none ∧
    map150.get_tileset_by_gid 75 = some ts50 ∧
    map150.get_tileset_by_gid 49 = some ts1 ∧
    map150.get_tileset_by_gid 1000 = some ts100 := by
  refine ⟨(get_tileset_by_gid_spec map150 0 (by decide)).1 (by decide), rfl, rfl, rfl⟩

/-- C9 (counterexample): with two tilesets sharing first-id 5 and
target gid 5, the EARLIER tileset in iteration order is returned (the
scan only replaces its maximum on a strictly greater first-id), not
the later one the claim states. -/
theorem get_tileset_duplicate_counterexample :
    mapDup.get_tileset_by_gid 5 = some tsA5 ∧ tsA5 ≠ tsB5 := by
  exact ⟨rfl, by decide⟩

/-- C9 (amended): when two tilesets share a first-id that is the
greatest one not exceeding the target gid, the earlier of the two in
iteration order wins (provided all first-ids are below `2^31` and no
tileset before the first duplicate carries the same first-id). -/
theorem get_tileset_duplicate_earlier_wins (m : Map) (gid : Nat)
    (l1 l2 l3 : List Tileset) (t1 t2 : Tileset)
    (hsplit : m.tilesets = l1 ++ t1 :: l2 ++ t2 :: l3)
    (hdup : t1.first_gid = t2.first_gid)
    (hel : t1.first_gid ≤ gid)
    (hl : ∀ t ∈ m.tilesets, t.first_gid < 2 ^ 31)
    (hmax : ∀ t ∈ m.tilesets, t.first_gid ≤ gid → t.first_gid ≤ t1.first_gid)
    (hfirst : ∀ t ∈ l1, t.first_gid ≠ t1.first_gid) :
    m.get_tileset_by_gid gid = some t1 := by
  unfold Map.get_tileset_by_gid
  rw [getTilesetByGidGo_pickBest gid m.tilesets hl,
    pickBest_eq_find gid t1.first_gid hel m.tilesets hmax
      ⟨t1, by
        rw [hsplit]
        exact List.mem_append_left _ (List.mem_append_right l1 (List.mem_cons_self t1 l2)),
       rfl⟩]
  rw [hsplit, List.find?_append, List.find?_append]
  have h1 : l1.find? (fun t => t.first_gid == t1.first_gid) = none := by
    rw [List.find?_eq_none]
    intro x hx
    simp [hfirst x hx]
  rw [h1, Option.none_or, List.find?_cons_of_pos _ (by simp)]
  show bestSel (-1) none ((some t1).or _) = some t1
  rw [Option.or_some]
  simp only [bestSel]
  rw [if_pos (by omega : (-1 : Int) < (t1.first_gid : Int))]

/-- Witness for C9 on the duplicate-first-id map. -/
theorem get_tileset_duplicate_earlier_wins_witness :
    mapDup.get_tileset_by_gid 5 = some tsA5 :=
  get_tileset_duplicate_earlier_wins mapDup 5 [] [] [] tsA5 tsB5 rfl rfl (by decide)
    (by decide) (by decide) (by simp)

theorem except_toOption_eq_some {ε α : Type} (e : Except ε α) (v : α) :
    e.toOption = some v ↔ e = .ok v := by
  cases e <;> simp [Except.toOption]

theorem csvRowsF_spec (width : Nat) (hw : 0 < width) :
    ∀ fuel ts, List.length ts ≤ fuel →
      (csvRowsF width fuel ts).flatten = ts ∧
      (∀ r ∈ (csvRowsF width fuel ts).dropLast, r.length = width) ∧
      (∀ r ∈ csvRowsF width fuel ts, 0 < r.length ∧ r.length ≤ width) := by
  intro fuel
  induction fuel with
  | zero =>
    intro ts hts
    have hnil : ts = [] := List.eq_nil_of_length_eq_zero (Nat.le_zero.mp hts)
    subst hnil
    exact ⟨rfl, by simp [csvRowsF], by simp [csvRowsF]⟩
  | succ fuel ih =>
    intro ts hts
    cases ts with
    | nil => exact ⟨rfl, by simp [csvRowsF], by simp [csvRowsF]⟩
    | cons t ts0 =>
      have hlen : ((t :: ts0).drop width).length ≤ fuel := by
        rw [List.length_drop]
        simp only [List.length_cons] at hts ⊢
        omega
      obtain ⟨hjoin, hdrop, hall⟩ := ih _ hlen
      have hstep : csvRowsF width (fuel + 1) (t :: ts0) =
          ((t :: ts0).take width) :: csvRowsF width fuel ((t :: ts0).drop width) := rfl
      refine ⟨?_, ?_, ?_⟩
      · rw [hstep, List.flatten_cons, hjoin, List.take_append_drop]
      · intro r hr
        rw [hstep] at hr
        cases hRc : csvRowsF width fuel ((t :: ts0).drop width) with
        | nil =>
          rw [hRc] at hr
          simp at hr
        | cons r0 R0 =>
          rw [hRc] at hr
          rw [List.dropLast_cons_of_ne_nil (by simp)] at hr
          rcases List.mem_cons.mp hr with rfl | hr2
          · have hr0 : 0 < r0.length := (hall r0 (by rw [hRc]; exact List.mem_cons_self ..)).1
            have hne : (t :: ts0).drop width ≠ [] := by
              intro hdd
              rw [hRc, hdd] at hjoin
              have hr0nil : r0 = [] := by
                have h := congrArg List.length hjoin
                rw [List.flatten_cons, List.length_append] at h
                simp at h
                exact h.1
              rw [hr0nil] at hr0
              simp at hr0
            have hlt : width < (t :: ts0).length := by
              by_contra hge
              push_neg at hge
              exact hne (List.drop_eq_nil_of_le hge)
            rw [List.length_take]
            omega
          · exact hdrop r (by rw [hRc]; exact hr2)
      · intro r hr
        rw [hstep] at hr
        rcases List.mem_cons.mp hr with rfl | hr2
        · rw [List.length_take]
          constructor <;> (simp only [List.length_cons]; omega)
        · exact hall r hr2

theorem parseTokens_cons (t : List Char) (ts : List (List Char)) :
    parseTokens (t :: ts) =
      match (parseU32chars t).toOption, parseTokens ts with
      | some v, some vs => some (v :: vs)
      | _, _ => none := rfl

theorem decodeCsvTokens_cons (width : Nat) (t0 : List Char) (ts : List (List Char)) :
    decodeCsvTokens width (t0 :: ts) =
      match parseU32chars t0 with
      | Except.error _ => Outcome.panic ("called `Result::unwrap()` on an `Err` value")
      | Except.ok v0 =>
        if width = 0 then Outcome.diverge
        else
          match parseTokens ts with
          | none => Outcome.panic ("called `Result::unwrap()` on an `Err` value")
          | some vs => Outcome.ok (csvRows width ((v0 :: vs).map LayerTile.new)) := rfl

theorem decodeCsvChars_ok (width : Nat) (hw : 0 < width) (s : String) (vals : List Nat)
    (hv : parseTokens (csvTokens s) = some vals) :
    decodeCsvChars width s = .ok (csvRows width (vals.map LayerTile.new)) := by
  unfold decodeCsvChars
  cases hts : csvTokens s with
  | nil =>
    rw [hts] at hv
    have hvals : ([] : List Nat) = vals := Option.some.inj hv
    rw [← hvals]
    rfl
  | cons t0 ts =>
    rw [hts] at hv
    rw [parseTokens_cons] at hv
    rw [decodeCsvTokens_cons]
    cases hp0 : (parseU32chars t0).toOption with
    | none => rw [hp0] at hv; exact absurd hv (by simp)
    | some v0 =>
      rw [hp0] at hv
      cases hps : parseTokens ts with
      | none => rw [hps] at hv; exact absurd hv (by simp)
      | some vs =>
        rw [hps] at hv
        have hvals : v0 :: vs = vals := Option.some.inj hv
        rw [(except_toOption_eq_some _ _).mp hp0]
        show (if width = 0 then Outcome.diverge
          else match some vs with
          | none => Outcome.panic ("called `Result::unwrap()` on an `Err` value")
          | some vs => Outcome.ok (csvRows width ((v0 :: vs).map LayerTile.new))) = _
        rw [if_neg (by omega : ¬ width = 0)]
        show Outcome.ok (csvRows width ((v0 :: vs).map LayerTile.new)) = _
        rw [← hvals]

/-- C4 (counterexample): with width 0 and a nonempty token list, each
`take(0)` consumes nothing and the grouping loop never terminates, so
CSV decoding produces no grouping at all (the model marks the
non-termination as `diverge`). -/
theorem decode_csv_width_zero_counterexample :
    decode_csv 0 [XmlEvent.Characters "1", XmlEvent.EndElement "data"] = .diverge := by
  rfl

/-- C4 (amended): for every positive width and every character content
whose non-blank tokens all parse as u32, CSV decoding returns the
tokens converted through `LayerTile::new` and grouped into rows of
exactly `width` entries, a shorter nonempty final row holding any
remainder. -/
theorem decode_csv_groups (width : Nat) (hw : 0 < width) (s : String)
    (vals : List Nat) (rest : List XmlEvent)
    (hv : parseTokens (csvTokens s) = some vals) :
    decode_csv width (XmlEvent.Characters s :: rest) =
      .ok (csvRows width (vals.map LayerTile.new), rest) ∧
    (csvRows width (vals.map LayerTile.new)).flatten = vals.map LayerTile.new ∧
    (∀ r ∈ (csvRows width (vals.map LayerTile.new)).dropLast, r.length = width) ∧
    (∀ r ∈ csvRows width (vals.map LayerTile.new), 0 < r.length ∧ r.length ≤ width) := by
  obtain ⟨hjoin, hdrop, hall⟩ :=
    csvRowsF_spec width hw (vals.map LayerTile.new).length (vals.map LayerTile.new)
      (le_refl _)
  refine ⟨?_, hjoin, hdrop, hall⟩
  show (match decodeCsvChars width s with
    | Outcome.ok rows => Outcome.ok (rows, rest)
    | Outcome.err e => Outcome.err e
    | Outcome.panic m => Outcome.panic m
    | Outcome.diverge => Outcome.diverge) = _
  rw [decodeCsvChars_ok width hw s vals hv]

/-- Witness for C4 at the spec's example: content `"1,2,3,4,5,6,7"`
with width 4 yields rows `[1,2,3,4]` and `[5,6,7]`. -/
theorem decode_csv_groups_witness :
    decode_csv 4 [XmlEvent.Characters "1,2,3,4,5,6,7", XmlEvent.EndElement "data"] =
      .ok ([[LayerTile.new 1, LayerTile.new 2, LayerTile.new 3, LayerTile.new 4],
            [LayerTile.new 5, LayerTile.new 6, LayerTile.new 7]],
           [XmlEvent.EndElement "data"]) := by
  have h := (decode_csv_groups 4 (by norm_num) "1,2,3,4,5,6,7" [1, 2, 3, 4, 5, 6, 7]
    [XmlEvent.EndElement "data"] (by rfl)).1
  rw [h]
  rfl

theorem convertRow_ok (chunk : List Nat) :
    ∀ remaining i, (i + remaining) * 4 ≤ chunk.length →
      ∃ row, convertRow chunk i remaining = .ok row ∧ row.length = remaining := by
  intro remaining
  induction remaining with
  | zero => intro i _; exact ⟨[], rfl, rfl⟩
  | succ remaining ih =>
    intro i hlen
    have h3 : i * 4 + 3 < chunk.length := by omega
    have h2 : i * 4 + 2 < chunk.length := by omega
    have h1 : i * 4 + 1 < chunk.length := by omega
    have h0 : i * 4 < chunk.length := by omega
    obtain ⟨row, hrow, hrl⟩ := ih (i + 1) (by omega)
    refine ⟨LayerTile.new ((chunk.get ⟨i * 4 + 3, h3⟩ <<< 24) +
      (chunk.get ⟨i * 4 + 2, h2⟩ <<< 16) +
      (chunk.get ⟨i * 4 + 1, h1⟩ <<< 8) + chunk.get ⟨i * 4, h0⟩) :: row, ?_, by simp [hrl]⟩
    show (match chunk[i * 4 + 3]?, chunk[i * 4 + 2]?, chunk[i * 4 + 1]?, chunk[i * 4]? with
      | some b3, some b2, some b1, some b0 =>
        (match convertRow chunk (i + 1) remaining with
         | Outcome.ok row =>
            Outcome.ok (LayerTile.new ((b3 <<< 24) + (b2 <<< 16) + (b1 <<< 8) + b0) :: row)
         | r => r)
      | _, _, _, _ => Outcome.panic ("index out of bounds")) = _
    rw [List.getElem?_eq_getElem h3, List.getElem?_eq_getElem h2,
      List.getElem?_eq_getElem h1, List.getElem?_eq_getElem h0, hrow]
    rfl

theorem chunksOfF_exact {α : Type} (n : Nat) (hn : 0 < n) :
    ∀ fuel k (l : List α), List.length l = n * k → List.length l ≤ fuel →
      (chunksOfF n fuel l).length = k ∧ ∀ c ∈ chunksOfF n fuel l, List.length c = n := by
  intro fuel
  induction fuel with
  | zero =>
    intro k l hk hle
    have hnil : l = [] := List.eq_nil_of_length_eq_zero (Nat.le_zero.mp hle)
    subst hnil
    have : k = 0 := by
      simp at hk
      omega
    subst this
    exact ⟨rfl, by simp [chunksOfF]⟩
  | succ fuel ih =>
    intro k l hk hle
    cases l with
    | nil =>
      have : k = 0 := by
        simp at hk
        omega
      subst this
      exact ⟨rfl, by simp [chunksOfF]⟩
    | cons x xs =>
      have hkpos : 0 < k := by
        by_contra hz
        push_neg at hz
        interval_cases k
        simp at hk
      have hlen : (x :: xs).length = n * k := hk
      have hge : n ≤ (x :: xs).length := by
        calc n = n * 1 := by omega
        _ ≤ n * k := Nat.mul_le_mul_left n hkpos
        _ = (x :: xs).length := hlen.symm
      have hdroplen : ((x :: xs).drop n).length = n * (k - 1) := by
        rw [List.length_drop, hlen]
        have : n * k - n = n * (k - 1) := by
          cases k with
          | zero => omega
          | succ k0 => simp [Nat.mul_succ]
        omega
      have hdrople : ((x :: xs).drop n).length ≤ fuel := by
        rw [List.length_drop]
        simp only [List.length_cons] at hle ⊢
        omega
      obtain ⟨hcnt, hclen⟩ := ih (k - 1) _ hdroplen hdrople
      have hstep : chunksOfF n (fuel + 1) (x :: xs) =
          ((x :: xs).take n) :: chunksOfF n fuel ((x :: xs).drop n) := rfl
      constructor
      · rw [hstep, List.length_cons, hcnt]
        omega
      · intro c hc
        rw [hstep] at hc
        rcases List.mem_cons.mp hc with rfl | hc2
        · rw [List.length_take]
          omega
        · exact hclen c hc2

/-- The exact-multiple half of C3: when the byte buffer's length is
exactly `width * 4 * k` with positive `width`, `convert_to_tile`
succeeds with `k` rows of exactly `width` tiles each. -/
theorem convert_to_tile_exact (width k : Nat) (hw : 0 < width) (data : List Nat)
    (hlen : data.length = width * 4 * k) :
    ∃ rows, convert_to_tile data width = .ok rows ∧ rows.length = k ∧
      ∀ r ∈ rows, List.length r = width := by
  have hn : 0 < width * 4 := by omega
  obtain ⟨hcnt, hclen⟩ := chunksOfF_exact (width * 4) hn data.length k data
    (by rw [hlen]) (le_refl _)
  unfold convert_to_tile
  rw [if_neg (by omega : ¬ width * 4 = 0)]
  unfold chunksOf
  have : ∀ cs : List (List Nat), (∀ c ∈ cs, List.length c = width * 4) →
      ∃ rows, convertRows width cs = .ok rows ∧ rows.length = cs.length ∧
        ∀ r ∈ rows, List.length r = width := by
    intro cs
    induction cs with
    | nil => intro _; exact ⟨[], rfl, rfl, by simp⟩
    | cons c cs0 ih =>
      intro hcs
      obtain ⟨row, hrow, hrl⟩ := convertRow_ok c width 0
        (by rw [hcs c (List.mem_cons_self ..)]; omega)
      obtain ⟨rows0, hrows0, hrc, hrlen⟩ := ih (fun d hd => hcs d (List.mem_cons_of_mem _ hd))
      refine ⟨row :: rows0, ?_, by simp [hrc], ?_⟩
      · show (match convertRow c 0 width with
          | Outcome.ok row =>
            (match convertRows width cs0 with
             | Outcome.ok rows => Outcome.ok (row :: rows)
             | r => r)
          | Outcome.err e => Outcome.err e
          | Outcome.panic m => Outcome.panic m
          | Outcome.diverge => Outcome.diverge) = _
        rw [hrow, hrows0]
      · intro r hr
        rcases List.mem_cons.mp hr with rfl | hr2
        · exact hrl
        · exact hrlen r hr2
  obtain ⟨rows, hrows, hrc, hrlen⟩ := this (chunksOfF (width * 4) data.length data) hclen
  exact ⟨rows, hrows, by rw [hrc, hcnt], hrlen⟩

/-- C6: a tileset element carrying `firstgid` and `source` (the
external-reference form, on which the embedded schema fails) parsed
with no source-location context fails with the dedicated
cannot-resolve-relative-reference error — a `TiledError.Other`,
distinct from every `MalformedAttributes` — and the result is the same
for every storage collaborator, so external storage is never
consulted.  The builder commits to the embedded schema when it
succeeds and falls back to the reference schema only on its `Err`. -/
theorem tileset_reference_no_location :
    (∀ (ext : Externals) (fuel : Nat) (events : List XmlEvent)
        (attrs : List OwnedAttribute) (map_path : Option String) (t : Tileset)
        (rest : List XmlEvent),
      Tileset.new_internal fuel events attrs = .ok (t, rest) →
      Tileset.new ext fuel events attrs map_path = .ok (t, rest)) ∧
    (∀ (ext : Externals) (fuel : Nat) (events : List XmlEvent)
        (attrs : List OwnedAttribute) (map_path : Option String) (e0 : TiledError),
      Tileset.new_internal fuel events attrs = .err e0 →
      Tileset.new ext fuel events attrs map_path =
        match Tileset.new_reference ext fuel attrs map_path with
        | Outcome.ok t => Outcome.ok (t, events)
        | Outcome.err e => Outcome.err e
        | Outcome.panic m => Outcome.panic m
        | Outcome.diverge => Outcome.diverge) ∧
    (∀ (ext : Externals) (fuel : Nat) (events : List XmlEvent)
        (attrs : List OwnedAttribute) (e0 : TiledError) (fg : Nat) (src : String),
      Tileset.new_internal fuel events attrs = .err e0 →
      tilesetRefAttrs attrs = .ok (fg, src) →
      Tileset.new ext fuel events attrs none =
        .err (.Other
          ("Maps with external tilesets must know their file location.  See parse_with_path(Path).")) ∧
      ∀ msg, TiledError.Other
          ("Maps with external tilesets must know their file location.  See parse_with_path(Path).")
        ≠ TiledError.MalformedAttributes msg) := by
  refine ⟨?_, ?_, ?_⟩
  · intro ext fuel events attrs map_path t rest h
    unfold Tileset.new
    rw [h]
  · intro ext fuel events attrs map_path e0 h
    unfold Tileset.new
    rw [h]
  · intro ext fuel events attrs e0 fg src hint href
    constructor
    · unfold Tileset.new
      rw [hint]
      show (match Tileset.new_reference ext fuel attrs none with
        | Outcome.ok t => Outcome.ok (t, events)
        | Outcome.err e => Outcome.err e
        | Outcome.panic m => Outcome.panic m
        | Outcome.diverge => Outcome.diverge) = _
      unfold Tileset.new_reference
      rw [href]
    · intro msg hcontra
      exact TiledError.noConfusion hcontra

/-- Witness for C6 at a concrete external-reference tileset element
(only `firstgid` and `source` attributes, so the embedded schema
fails; the element is self-closing, so no events are consumed). -/
theorem tileset_reference_no_location_witness :
    Tileset.new trivialExt 5 [] [⟨"firstgid", "1"⟩, ⟨"source", "a.tsx"⟩] none =
      .err (.Other
        ("Maps with external tilesets must know their file location.  See parse_with_path(Path).")) :=
  (tileset_reference_no_location.2.2 trivialExt 5 []
    [⟨"firstgid", "1"⟩, ⟨"source", "a.tsx"⟩]
    (TiledError.MalformedAttributes
      ("tileset must have a firstgid, name tile width and height with correct types"))
    1 "a.tsx" (by rfl) (by rfl)).1

theorem Layer_new_index (ext : Externals) (fuel : Nat) (events : List XmlEvent)
    (attrs : List OwnedAttribute) (w idx : Nat) (inf : Bool) (l : Layer)
    (rest : List XmlEvent)
    (h : Layer.new ext fuel events attrs w idx inf = .ok (l, rest)) :
    l.layer_index = idx := by
  unfold Layer.new at h
  split at h
  · simp at h
  · split at h
    · simp only [Outcome.ok.injEq, Prod.mk.injEq] at h
      rw [← h.1]
    · simp at h
    · simp at h
    · simp at h

theorem ImageLayer_new_index (fuel : Nat) (events : List XmlEvent)
    (attrs : List OwnedAttribute) (idx : Nat) (il : ImageLayer) (rest : List XmlEvent)
    (h : ImageLayer.new fuel events attrs idx = .ok (il, rest)) :
    il.layer_index = idx := by
  unfold ImageLayer.new at h
  split at h
  · simp at h
  · split at h
    · simp only [Outcome.ok.injEq, Prod.mk.injEq] at h
      rw [← h.1]
    · simp at h
    · simp at h
    · simp at h

theorem ObjectGroup_new_index (fuel : Nat) (events : List XmlEvent)
    (attrs : List OwnedAttribute) (li : Option Nat) (og : ObjectGroup)
    (rest : List XmlEvent)
    (h : ObjectGroup.new fuel events attrs li = .ok (og, rest)) :
    og.layer_index = li := by
  unfold ObjectGroup.new at h
  split at h
  · simp only [Outcome.ok.injEq, Prod.mk.injEq] at h
    rw [← h.1]
  · simp at h
  · simp at h
  · simp at h

theorem idxInv_lt (A B C : List Nat) (idx : Nat)
    (h : ((A ++ B ++ C : List Nat) : Multiset Nat) = Multiset.range idx) :
    ∀ a, a ∈ A ∨ a ∈ B ∨ a ∈ C → a < idx := by
  intro a ha
  have hm : a ∈ ((A ++ B ++ C : List Nat) : Multiset Nat) := by
    rw [Multiset.mem_coe]
    simp only [List.mem_append]
    tauto
  rw [h] at hm
  exact Multiset.mem_range.mp hm

theorem multiset_snoc_left (A B C : List Nat) (idx : Nat)
    (h : ((A ++ B ++ C : List Nat) : Multiset Nat) = Multiset.range idx) :
    (((A ++ [idx]) ++ B ++ C : List Nat) : Multiset Nat) = Multiset.range (idx + 1) := by
  rw [Multiset.range_succ, ← Multiset.singleton_add, ← h]
  simp only [← Multiset.coe_add, Multiset.coe_singleton]
  abel

theorem chain_append_lt (L : List Nat) (idx : Nat) (hc : List.Chain' (· < ·) L)
    (hlt : ∀ a ∈ L, a < idx) : List.Chain' (· < ·) (L ++ [idx]) := by
  rw [List.chain'_append]
  refine ⟨hc, List.chain'_singleton _, ?_⟩
  intro x hx y hy
  have hxm : x ∈ L := List.mem_of_getLast?_eq_some (Option.mem_def.mp hx)
  have hyi : idx = y := by simpa using hy
  subst hyi
  exact hlt x hxm

theorem filterMap_length_of_all_some (ogs : List ObjectGroup)
    (h : ∀ og ∈ ogs, (ObjectGroup.layer_index og).isSome) :
    (ogs.filterMap ObjectGroup.layer_index).length = ogs.length := by
  induction ogs with
  | nil => rfl
  | cons og rest ih =>
    have hhead := h og (List.mem_cons_self ..)
    obtain ⟨i, hi⟩ := Option.isSome_iff_exists.mp hhead
    rw [List.filterMap_cons, hi]
    simp [ih (fun x hx => h x (List.mem_cons_of_mem _ hx))]

theorem idxInv_add_layer (ls : List Layer) (ils : List ImageLayer)
    (ogs : List ObjectGroup) (idx : Nat) (l : Layer)
    (hinv : IdxInv ls ils ogs idx) (hl : l.layer_index = idx) :
    IdxInv (ls ++ [l]) ils ogs (idx + 1) := by
  obtain ⟨hsome, hms, hc1, hc2, hc3⟩ := hinv
  have hlt := idxInv_lt _ _ _ _ hms
  refine ⟨hsome, ?_, ?_, hc2, hc3⟩
  · rw [List.map_append, List.map_singleton, hl]
    exact multiset_snoc_left _ _ _ idx hms
  · rw [List.map_append, List.map_singleton, hl]
    exact chain_append_lt _ idx hc1 (fun a ha => hlt a (Or.inl ha))

theorem multiset_snoc_mid (A B C : List Nat) (idx : Nat)
    (h : ((A ++ B ++ C : List Nat) : Multiset Nat) = Multiset.range idx) :
    ((A ++ (B ++ [idx]) ++ C : List Nat) : Multiset Nat) = Multiset.range (idx + 1) := by
  rw [Multiset.range_succ, ← Multiset.singleton_add, ← h]
  simp only [← Multiset.coe_add, Multiset.coe_singleton]
  abel

theorem idxInv_add_image_layer (ls : List Layer) (ils : List ImageLayer)
    (ogs : List ObjectGroup) (idx : Nat) (il : ImageLayer)
    (hinv : IdxInv ls ils ogs idx) (hl : il.layer_index = idx) :
    IdxInv ls (ils ++ [il]) ogs (idx + 1) := by
  obtain ⟨hsome, hms, hc1, hc2, hc3⟩ := hinv
  have hlt := idxInv_lt _ _ _ _ hms
  refine ⟨hsome, ?_, hc1, ?_, hc3⟩
  · rw [List.map_append, List.map_singleton, hl]
    exact multiset_snoc_mid _ _ _ idx hms
  · rw [List.map_append, List.map_singleton, hl]
    exact chain_append_lt _ idx hc2 (fun a ha => hlt a (Or.inr (Or.inl ha)))

theorem multiset_snoc_right (A B C : List Nat) (idx : Nat)
    (h : ((A ++ B ++ C : List Nat) : Multiset Nat) = Multiset.range idx) :
    ((A ++ B ++ (C ++ [idx]) : List Nat) : Multiset Nat) = Multiset.range (idx + 1) := by
  rw [Multiset.range_succ, ← Multiset.singleton_add, ← h]
  simp only [← Multiset.coe_add, Multiset.coe_singleton]
  abel

theorem idxInv_add_object_group (ls : List Layer) (ils : List ImageLayer)
    (ogs : List ObjectGroup) (idx : Nat) (og : ObjectGroup)
    (hinv : IdxInv ls ils ogs idx) (hl : og.layer_index = some idx) :
    IdxInv ls ils (ogs ++ [og]) (idx + 1) := by
  obtain ⟨hsome, hms, hc1, hc2, hc3⟩ := hinv
  have hlt := idxInv_lt _ _ _ _ hms
  have hfm : (ogs ++ [og]).filterMap ObjectGroup.layer_index =
      ogs.filterMap ObjectGroup.layer_index ++ [idx] := by
    rw [List.filterMap_append]
    simp [List.filterMap_cons, hl]
  refine ⟨?_, ?_, hc1, hc2, ?_⟩
  · intro x hx
    rcases List.mem_append.mp hx with hx1 | hx2
    · exact hsome x hx1
    · rw [List.mem_singleton.mp hx2, hl]
      rfl
  · rw [hfm]
    exact multiset_snoc_right _ _ _ idx hms
  · rw [hfm]
    exact chain_append_lt _ idx hc3 (fun a ha => hlt a (Or.inr (Or.inr ha)))

theorem mapLoop_inv (ext : Externals) (map_path : Option String) (w : Nat) (inf : Bool) :
    ∀ fuel (st : MapState) (events : List XmlEvent) (stf : MapState)
      (rest : List XmlEvent),
      IdxInv st.layers st.image_layers st.object_groups st.layer_index →
      mapLoop ext map_path w inf fuel st events = .ok (stf, rest) →
      IdxInv stf.layers stf.image_layers stf.object_groups stf.layer_index := by
  intro fuel
  induction fuel with
  | zero =>
    intro st events stf rest _ h
    exact absurd h (by simp [mapLoop])
  | succ fuel ih =>
    intro st events stf rest hinv h
    cases events with
    | nil => exact absurd h (by simp [mapLoop])
    | cons ev rest0 =>
      cases ev with
      | StartElement name attrs =>
        simp only [mapLoop] at h
        split_ifs at h with h1 h2 h3 h4 h5
        · cases htn : Tileset.new ext fuel rest0 attrs map_path with
          | ok p =>
            obtain ⟨t, rest2⟩ := p
            rw [htn] at h
            exact ih { st with tilesets := st.tilesets ++ [t] } rest2 stf rest hinv h
          | err e => rw [htn] at h; simp at h
          | panic m => rw [htn] at h; simp at h
          | diverge => rw [htn] at h; simp at h
        · cases hln : Layer.new ext fuel rest0 attrs w st.layer_index inf with
          | ok p =>
            obtain ⟨l, rest2⟩ := p
            rw [hln] at h
            exact ih
              { st with layers := st.layers ++ [l], layer_index := st.layer_index + 1 }
              rest2 stf rest
              (idxInv_add_layer _ _ _ _ l hinv
                (Layer_new_index ext fuel rest0 attrs w st.layer_index inf l rest2 hln)) h
          | err e => rw [hln] at h; simp at h
          | panic m => rw [hln] at h; simp at h
          | diverge => rw [hln] at h; simp at h
        · cases hiln : ImageLayer.new fuel rest0 attrs st.layer_index with
          | ok p =>
            obtain ⟨il, rest2⟩ := p
            rw [hiln] at h
            exact ih
              { st with image_layers := st.image_layers ++ [il],
                        layer_index := st.layer_index + 1 }
              rest2 stf rest
              (idxInv_add_image_layer _ _ _ _ il hinv
                (ImageLayer_new_index fuel rest0 attrs st.layer_index il rest2 hiln)) h
          | err e => rw [hiln] at h; simp at h
          | panic m => rw [hiln] at h; simp at h
          | diverge => rw [hiln] at h; simp at h
        · cases hpp : parse_properties rest0 with
          | ok p =>
            obtain ⟨props, rest2⟩ := p
            rw [hpp] at h
            exact ih { st with properties := props } rest2 stf rest hinv h
          | err e => rw [hpp] at h; simp at h
          | panic m => rw [hpp] at h; simp at h
          | diverge => rw [hpp] at h; simp at h
        · cases hogn : ObjectGroup.new fuel rest0 attrs (some st.layer_index) with
          | ok p =>
            obtain ⟨og, rest2⟩ := p
            rw [hogn] at h
            exact ih
              { st with object_groups := st.object_groups ++ [og],
                        layer_index := st.layer_index + 1 }
              rest2 stf rest
              (idxInv_add_object_group _ _ _ _ og hinv
                (ObjectGroup_new_index fuel rest0 attrs (some st.layer_index) og rest2
                  hogn)) h
          | err e => rw [hogn] at h; simp at h
          | panic m => rw [hogn] at h; simp at h
          | diverge => rw [hogn] at h; simp at h
        · exact ih st rest0 stf rest hinv h
      | EndElement name =>
        simp only [mapLoop] at h
        split_ifs at h with h1
        · simp only [Outcome.ok.injEq, Prod.mk.injEq] at h
          rw [← h.1]
          exact hinv
        · exact ih st rest0 stf rest hinv h
      | EndDocument =>
        simp only [mapLoop] at h
        exact absurd h (by simp)
      | StartDocument =>
        exact ih st rest0 stf rest hinv (by simpa [mapLoop] using h)
      | Characters s =>
        exact ih st rest0 stf rest hinv (by simpa [mapLoop] using h)
      | Whitespace s =>
        exact ih st rest0 stf rest hinv (by simpa [mapLoop] using h)
      | CData s =>
        exact ih st rest0 stf rest hinv (by simpa [mapLoop] using h)
      | Comment s =>
        exact ih st rest0 stf rest hinv (by simpa [mapLoop] using h)
      | ProcessingInstruction s =>
        exact ih st rest0 stf rest hinv (by simpa [mapLoop] using h)

/-- C5: for every map document that parses successfully, the
`layer_index` values assigned across tile layers, image layers and
object groups taken together are exactly `0, 1, …, n-1` for `n` the
total number of those children (so, sorted, they are the encounter
positions), each of the three lists carries them in strictly
increasing order, and every map-level object group has an index. -/
theorem map_layer_indexes_sequential (ext : Externals) (fuel : Nat)
    (events : List XmlEvent) (attrs : List OwnedAttribute) (map_path : Option String)
    (m : Map) (rest : List XmlEvent)
    (h : Map.new ext fuel events attrs map_path = .ok (m, rest)) :
    (∀ og ∈ m.object_groups, (ObjectGroup.layer_index og).isSome) ∧
    ((mapLayerIndexes m : Multiset Nat) =
      Multiset.range (m.layers.length + m.image_layers.length +
        m.object_groups.length)) ∧
    List.Chain' (· < ·) (m.layers.map Layer.layer_index) ∧
    List.Chain' (· < ·) (m.image_layers.map ImageLayer.layer_index) ∧
    List.Chain' (· < ·) (m.object_groups.filterMap ObjectGroup.layer_index) := by
  unfold Map.new at h
  split at h
  · simp at h
  · rename_i st0 v o w0 hh0 tw th heq
    cases hml : mapLoop ext map_path w0 (st0.infinite.getD false) fuel {} events with
    | ok q =>
      obtain ⟨ms, rest2⟩ := q
      rw [hml] at h
      have hinv0 : IdxInv (MapState.layers {}) (MapState.image_layers {})
          (MapState.object_groups {}) (MapState.layer_index {}) := by
        refine ⟨by simp, by simp, by simp, by simp, by simp⟩
      have hinv := mapLoop_inv ext map_path w0 (st0.infinite.getD false) fuel {} events
        ms rest2 hinv0 hml
      obtain ⟨hsome, hms, hc1, hc2, hc3⟩ := hinv
      simp only [Outcome.ok.injEq, Prod.mk.injEq] at h
      obtain ⟨hm, _⟩ := h
      have hlen : ms.layers.length + ms.image_layers.length + ms.object_groups.length =
          ms.layer_index := by
        have hcard := congrArg Multiset.card hms
        rw [Multiset.coe_card, Multiset.card_range, List.length_append,
          List.length_append, List.length_map, List.length_map,
          filterMap_length_of_all_some _ hsome] at hcard
        omega
      rw [← hm]
      exact ⟨hsome, by rw [← hlen] at hms; exact hms, hc1, hc2, hc3⟩
    | err e => rw [hml] at h; simp at h
    | panic mm => rw [hml] at h; simp at h
    | diverge => rw [hml] at h; simp at h

/-- Witness for C5 on the alternating layer / objectgroup / imagelayer
/ layer document: indices 0, 1, 2, 3 in encounter order. -/
theorem map_layer_indexes_sequential_witness :
    Map.new trivialExt 20 c5events c5attrs none = .ok (c5map, []) ∧
    ((∀ og ∈ c5map.object_groups, (ObjectGroup.layer_index og).isSome) ∧
    ((mapLayerIndexes c5map : Multiset Nat) =
      Multiset.range (c5map.layers.length + c5map.image_layers.length +
        c5map.object_groups.length)) ∧
    List.Chain' (· < ·) (c5map.layers.map Layer.layer_index) ∧
    List.Chain' (· < ·) (c5map.image_layers.map ImageLayer.layer_index) ∧
    List.Chain' (· < ·) (c5map.object_groups.filterMap ObjectGroup.layer_index)) :=
  ⟨rfl, map_layer_indexes_sequential trivialExt 20 c5events c5attrs none c5map [] rfl⟩

end Tiled
